import Mathlib

/-!
Verification of the ELF header decoder.

The development shallowly embeds the two source modules:

* `src/reader.rs` — `Reader`, a byte stream with a read position and an
  optional resolved endianness, offering raw byte reads and
  endianness-aware 16/32/64-bit reads;
* `src/header.rs` — `Header` and `Header::read`, the field-by-field
  decode of the ELF identification record and header.

Bytes are modelled as `Nat` values (`< 256` where it matters), the
stream as the list of bytes not yet consumed plus a count of consumed
bytes, and fallible reads as `Except` results paired with the reader
state after the call (the Rust code takes `&mut Reader`, so the reader
survives a failed call).
-/

namespace Elf

/-- Whether the file is in 32- or 64-bit format (`src/header.rs`,
`WordSize`). -/
inductive WordSize
  | Bits32
  | Bits64
  deriving DecidableEq, Repr

/-- Byte order of multi-byte fields (`src/header.rs`, `Endianness`). -/
inductive Endianness
  | Big
  | Little
  deriving DecidableEq, Repr

/-- A width-tagged address (`src/header.rs`, `Address`). The payloads
are `Nat`s; decoding only ever constructs values below `2^32` / `2^64`. -/
inductive Address
  | Bits32 (value : Nat)
  | Bits64 (value : Nat)
  deriving DecidableEq, Repr

/-- The target operating system ABI (`src/header.rs`, `Abi`): the
eighteen variants of the source enumeration. -/
inductive Abi
  | SystemV
  | HPUX
  | NetBSD
  | Linux
  | GNUHurd
  | Solaris
  | AIX
  | IRIX
  | FreeBSD
  | Tru64
  | NovellModesto
  | OpenBSD
  | OpenVMS
  | NonStopKernel
  | AROS
  | FenixOS
  | NuxiCloudABI
  | OpenVOS
  deriving DecidableEq, Repr

/-- The object file type (`src/header.rs`, `Type`; the trailing
underscore avoids the Lean keyword). -/
inductive Type_
  | Unknown
  | Relocatable
  | Executable
  | SharedObject
  | Core
  | Other (code : Nat)
  deriving DecidableEq, Repr

/-- The decoded ELF header (`src/header.rs`, `Header`). Numeric fields
are `Nat`s standing for the `u8`/`u16`/`u32` of the source. -/
structure Header where
  word_size : WordSize
  endianness : Endianness
  abi : Abi
  abi_version : Nat
  type_ : Type_
  machine : Nat
  version : Nat
  entry_point : Address
  program_header_address : Address
  section_header_address : Address
  flags : Nat
  header_size : Nat
  program_header_entry_size : Nat
  program_header_entry_count : Nat
  section_header_entry_size : Nat
  section_header_entry_count : Nat
  section_header_name_entry_idx : Nat
  deriving DecidableEq, Repr

/-- The distinguishable failure outcomes of the decoder. The source
reports errors as strings; each constructor stands for one of the
distinct messages, carrying the offending value where the message
does (`src/header.rs` error returns and `src/reader.rs` `u16`/`u32`/
`u64`; `truncated` stands for the `io::Error` of a short `read_exact`). -/
inductive DecodeError
  | truncated
  | notAnElfFile
  | invalidWordSize (value : Nat)
  | invalidEndianness (value : Nat)
  | invalidIdentVersion (value : Nat)
  | invalidAbi (value : Nat)
  | invalidType (value : Nat)
  | endiannessUnresolved (bits : Nat)
  deriving DecidableEq, Repr

/-- The byte source (`src/reader.rs`, `Reader`). `input` is the list of
bytes not yet consumed (the model of the buffered stream position),
`consumed` counts the bytes read so far, and `endianness` is the
optional resolved endianness of the source. -/
structure Reader where
  input : List Nat
  consumed : Nat
  endianness : Option Endianness
  deriving DecidableEq, Repr

/-- A stateful fallible computation over the reader: the Rust methods
take `&mut Reader` and return `Result`, so both the value and the
updated reader come back, on failure as well as on success. -/
abbrev M (α : Type) : Type := Reader → Except DecodeError α × Reader

/-- Sequencing of reader computations: run the first; on success feed
its value to the continuation, on failure stop with the failure (the
`?` operator of the source). -/
def M.bind {α β : Type} (m : M α) (f : α → M β) : M β := fun r =>
  match m r with
  | (Except.ok a, r') => f a r'
  | (Except.error e, r') => (Except.error e, r')

/-- Return a value without touching the reader. -/
def M.pure {α : Type} (a : α) : M α := fun r => (Except.ok a, r)

/-- Fail with a decode error, leaving the reader as it is (an early
`return Err(..)` of the source). -/
def M.fail {α : Type} (err : DecodeError) : M α := fun r => (Except.error err, r)

/-- A fresh reader over an input (`Reader::new`): nothing consumed,
endianness not yet resolved. -/
def Reader.new (input : List Nat) : Reader :=
  { input := input, consumed := 0, endianness := none }

/-- Read exactly `n` bytes (`Reader::bytes` / `Reader::bytes_dynamic`,
both of which perform one `read_exact` of `n` bytes): fail with
`truncated` when fewer than `n` bytes remain. -/
def Reader.bytes (n : Nat) : M (List Nat) := fun r =>
  if n ≤ r.input.length then
    (Except.ok (r.input.take n),
     { r with input := r.input.drop n, consumed := r.consumed + n })
  else
    (Except.error DecodeError.truncated, r)

/-- Read one byte (`Reader::byte`). -/
def Reader.byte : M Nat :=
  M.bind (Reader.bytes 1) fun bs => M.pure (bs.headD 0)

/-- Little-endian interpretation of a byte list
(`uN::from_le_bytes`): first byte is least significant. -/
def fromLeBytes (bs : List Nat) : Nat :=
  bs.foldr (fun b acc => b + 256 * acc) 0

/-- Big-endian interpretation of a byte list (`uN::from_be_bytes`):
first byte is most significant. -/
def fromBeBytes (bs : List Nat) : Nat :=
  bs.foldl (fun acc b => 256 * acc + b) 0

/-- Interpret a byte list in a given endianness (the `match endianness`
of `Reader::u16`/`u32`/`u64`). -/
def Endianness.interp : Endianness → List Nat → Nat
  | Endianness.Little, bs => fromLeBytes bs
  | Endianness.Big, bs => fromBeBytes bs

/-- Read a `k`-byte unsigned word (the common shape of `Reader::u16`,
`Reader::u32` and `Reader::u64`): fail with `endiannessUnresolved` if
the endianness is not yet set — this check precedes the byte read, as
in the source — otherwise read `k` bytes and interpret them. -/
def Reader.word (k : Nat) : M Nat := fun r =>
  match r.endianness with
  | none => (Except.error (DecodeError.endiannessUnresolved (8 * k)), r)
  | some e =>
    match Reader.bytes k r with
    | (Except.ok bs, r') => (Except.ok (Endianness.interp e bs), r')
    | (Except.error err, r') => (Except.error err, r')

/-- `Reader::u16`. -/
def Reader.u16 : M Nat := Reader.word 2

/-- `Reader::u32`. -/
def Reader.u32 : M Nat := Reader.word 4

/-- `Reader::u64`. -/
def Reader.u64 : M Nat := Reader.word 8

/-- Register the resolved endianness on the reader (the
`reader.endianness = Some(endianness)` assignment in `Header::read`). -/
def Reader.setEndianness (e : Endianness) : M Unit := fun r =>
  (Except.ok (), { r with endianness := some e })

/-- The word-size mapping of `Header::read` (`e_ident[EI_CLASS]`,
lines 111–120): 1 is 32-bit, 2 is 64-bit, anything else is invalid. -/
def wordSizeOfByte (b : Nat) : Option WordSize :=
  if b = 1 then some WordSize.Bits32
  else if b = 2 then some WordSize.Bits64
  else none

/-- The endianness mapping of `Header::read` (`e_ident[EI_DATA]`,
lines 122–131): 1 is little, 2 is big, anything else is invalid. -/
def endiannessOfByte (b : Nat) : Option Endianness :=
  if b = 1 then some Endianness.Little
  else if b = 2 then some Endianness.Big
  else none

/-- The ABI mapping of `Header::read` (`e_ident[EI_OSABI]`,
lines 146–168), arm for arm; every unlisted byte is invalid. -/
def abiOfByte (b : Nat) : Option Abi :=
  if b = 0x00 then some Abi.SystemV
  else if b = 0x01 then some Abi.HPUX
  else if b = 0x02 then some Abi.NetBSD
  else if b = 0x03 then some Abi.Linux
  else if b = 0x04 then some Abi.GNUHurd
  else if b = 0x06 then some Abi.Solaris
  else if b = 0x07 then some Abi.AIX
  else if b = 0x08 then some Abi.IRIX
  else if b = 0x09 then some Abi.FreeBSD
  else if b = 0x0A then some Abi.Tru64
  else if b = 0x0B then some Abi.NovellModesto
  else if b = 0x0C then some Abi.OpenBSD
  else if b = 0x0D then some Abi.OpenVMS
  else if b = 0x0E then some Abi.NonStopKernel
  else if b = 0x0F then some Abi.AROS
  else if b = 0x10 then some Abi.FenixOS
  else if b = 0x11 then some Abi.NuxiCloudABI
  else if b = 0x12 then some Abi.OpenVOS
  else none

/-- The object-type mapping of `Header::read` (`e_type`,
lines 175–185): five enumerated values, four reserved codes carried
verbatim in `Other`, everything else invalid. -/
def typeOfU16 (v : Nat) : Option Type_ :=
  if v = 0x00 then some Type_.Unknown
  else if v = 0x01 then some Type_.Relocatable
  else if v = 0x02 then some Type_.Executable
  else if v = 0x03 then some Type_.SharedObject
  else if v = 0x04 then some Type_.Core
  else if v = 0xFE00 ∨ v = 0xFEFF ∨ v = 0xFF00 ∨ v = 0xFFFF then some (Type_.Other v)
  else none

/-- `Header::read`, lines 207–233: the trailing scalar fields (flags
and the six `u16`s) and the assembly of the record. The fields decoded
by the earlier stages arrive as parameters. -/
def Header.readScalars (word_size : WordSize) (endianness : Endianness) (abi : Abi)
    (abi_version : Nat) (type_ : Type_) (machine : Nat) (version : Nat)
    (entry_point : Address) (program_header_address : Address)
    (section_header_address : Address) : M Header :=
  M.bind Reader.u32 fun flags =>
  M.bind Reader.u16 fun header_size =>
  M.bind Reader.u16 fun program_header_entry_size =>
  M.bind Reader.u16 fun program_header_entry_count =>
  M.bind Reader.u16 fun section_header_entry_size =>
  M.bind Reader.u16 fun section_header_entry_count =>
  M.bind Reader.u16 fun section_header_name_entry_idx =>
  M.pure
    { word_size := word_size
      endianness := endianness
      abi := abi
      abi_version := abi_version
      type_ := type_
      machine := machine
      version := version
      entry_point := entry_point
      program_header_address := program_header_address
      section_header_address := section_header_address
      flags := flags
      header_size := header_size
      program_header_entry_size := program_header_entry_size
      program_header_entry_count := program_header_entry_count
      section_header_entry_size := section_header_entry_size
      section_header_entry_count := section_header_entry_count
      section_header_name_entry_idx := section_header_name_entry_idx }

/-- `Header::read`, lines 190–205: the three address fields, the single
branch point of the decode — three `u32`s tagged 32-bit or three `u64`s
tagged 64-bit according to the word size. -/
def Header.readAddrs (word_size : WordSize) (endianness : Endianness) (abi : Abi)
    (abi_version : Nat) (type_ : Type_) (machine : Nat) (version : Nat) : M Header :=
  match word_size with
  | WordSize.Bits32 =>
    M.bind Reader.u32 fun entry_point =>
    M.bind Reader.u32 fun program_header_address =>
    M.bind Reader.u32 fun section_header_address =>
    Header.readScalars WordSize.Bits32 endianness abi abi_version type_ machine version
      (Address.Bits32 entry_point) (Address.Bits32 program_header_address)
      (Address.Bits32 section_header_address)
  | WordSize.Bits64 =>
    M.bind Reader.u64 fun entry_point =>
    M.bind Reader.u64 fun program_header_address =>
    M.bind Reader.u64 fun section_header_address =>
    Header.readScalars WordSize.Bits64 endianness abi abi_version type_ machine version
      (Address.Bits64 entry_point) (Address.Bits64 program_header_address)
      (Address.Bits64 section_header_address)

/-- `Header::read`, lines 187–188 continued: machine and version,
read after a successful object-type decode. -/
def Header.readAfterType (word_size : WordSize) (endianness : Endianness) (abi : Abi)
    (abi_version : Nat) (type_ : Type_) : M Header :=
  M.bind Reader.u16 fun machine =>
  M.bind Reader.u32 fun version =>
  Header.readAddrs word_size endianness abi abi_version type_ machine version

/-- `Header::read`, lines 175–185: the object type, the first
endianness-aware field. -/
def Header.readMulti (word_size : WordSize) (endianness : Endianness) (abi : Abi)
    (abi_version : Nat) : M Header :=
  M.bind Reader.u16 fun tv =>
  match typeOfU16 tv with
  | some type_ => Header.readAfterType word_size endianness abi abi_version type_
  | none => M.fail (DecodeError.invalidType tv)

/-- `Header::read`, lines 170–173: the ABI version byte and the seven
padding bytes, after a successful ABI decode. -/
def Header.readAfterAbi (word_size : WordSize) (endianness : Endianness)
    (abi : Abi) : M Header :=
  M.bind Reader.byte fun abi_version =>
  M.bind (Reader.bytes 7) fun _ =>
  Header.readMulti word_size endianness abi abi_version

/-- `Header::read`, lines 136–168: the identifier-version byte (must be
1) and the ABI byte, decoded once the endianness is registered. -/
def Header.readIdentTail (word_size : WordSize) (endianness : Endianness) : M Header :=
  M.bind Reader.byte fun iv =>
  if iv = 1 then
    M.bind Reader.byte fun ab =>
    match abiOfByte ab with
    | some abi => Header.readAfterAbi word_size endianness abi
    | none => M.fail (DecodeError.invalidAbi ab)
  else M.fail (DecodeError.invalidIdentVersion iv)

/-- `Header::read`, lines 122–134: the endianness byte, registered on
the reader immediately on success. -/
def Header.readAfterWordSize (word_size : WordSize) : M Header :=
  M.bind Reader.byte fun eb =>
  match endiannessOfByte eb with
  | some endianness =>
    M.bind (Reader.setEndianness endianness) fun _ =>
    Header.readIdentTail word_size endianness
  | none => M.fail (DecodeError.invalidEndianness eb)

/-- `Header::read`, lines 105–234: the public decode entry point.
The magic check and the word-size byte, then the rest of the decode.
The stage functions partition the source body in source order; their
composition here is the whole of `Header::read`. -/
def Header.read : M Header :=
  M.bind (Reader.bytes 4) fun magic_bytes =>
  if magic_bytes = [0x7F, 0x45, 0x4C, 0x46] then
    M.bind Reader.byte fun wsb =>
    match wordSizeOfByte wsb with
    | some word_size => Header.readAfterWordSize word_size
    | none => M.fail (DecodeError.invalidWordSize wsb)
  else M.fail DecodeError.notAnElfFile

/-! ### Auxiliary definitions used only in the statements of claims -/

/-- The width tag of an address. -/
def Address.width : Address → WordSize
  | Address.Bits32 _ => WordSize.Bits32
  | Address.Bits64 _ => WordSize.Bits64

/-- The byte count of a word size. -/
def WordSize.bits : WordSize → Nat
  | WordSize.Bits32 => 32
  | WordSize.Bits64 => 64

/-- The size in bytes of an address at a given word size. -/
def WordSize.addrSize : WordSize → Nat
  | WordSize.Bits32 => 4
  | WordSize.Bits64 => 8

/-- Modelled from the spec: the identification byte for a word size
(spec section 6, offset 4: 1 = 32-bit, 2 = 64-bit). The source has no
encoder; this is the inverse of `wordSizeOfByte` per the spec table. -/
def wordSizeByte : WordSize → Nat
  | WordSize.Bits32 => 1
  | WordSize.Bits64 => 2

/-- Modelled from the spec: the identification byte for an endianness
(spec section 6, offset 5: 1 = little, 2 = big). -/
def endiannessByte : Endianness → Nat
  | Endianness.Little => 1
  | Endianness.Big => 2

/-- Modelled from the spec: the identification byte for an ABI tag
(spec section 3's enumeration; inverse of `abiOfByte`). -/
def abiByte : Abi → Nat
  | Abi.SystemV => 0x00
  | Abi.HPUX => 0x01
  | Abi.NetBSD => 0x02
  | Abi.Linux => 0x03
  | Abi.GNUHurd => 0x04
  | Abi.Solaris => 0x06
  | Abi.AIX => 0x07
  | Abi.IRIX => 0x08
  | Abi.FreeBSD => 0x09
  | Abi.Tru64 => 0x0A
  | Abi.NovellModesto => 0x0B
  | Abi.OpenBSD => 0x0C
  | Abi.OpenVMS => 0x0D
  | Abi.NonStopKernel => 0x0E
  | Abi.AROS => 0x0F
  | Abi.FenixOS => 0x10
  | Abi.NuxiCloudABI => 0x11
  | Abi.OpenVOS => 0x12

/-- Modelled from the spec: the 16-bit code of an object type
(spec section 3: unknown = 0, …, core = 4, `Other` carries its code). -/
def typeCode : Type_ → Nat
  | Type_.Unknown => 0x00
  | Type_.Relocatable => 0x01
  | Type_.Executable => 0x02
  | Type_.SharedObject => 0x03
  | Type_.Core => 0x04
  | Type_.Other code => code

/-- `w`-byte little-endian encoding of `n` (`uN::to_le_bytes`). -/
def toLeBytes : Nat → Nat → List Nat
  | _, 0 => []
  | n, w + 1 => n % 256 :: toLeBytes (n / 256) w

/-- Modelled from the spec: `w`-byte encoding of `n` in endianness `e`
(spec section 6, multi-byte fields laid out in the file's byte order). -/
def Endianness.toBytes (e : Endianness) (w n : Nat) : List Nat :=
  match e with
  | Endianness.Little => toLeBytes n w
  | Endianness.Big => (toLeBytes n w).reverse

/-- Modelled from the spec: the byte encoding of an address at its
tagged width (spec section 6: 4 bytes when 32-bit, 8 when 64-bit). -/
def Address.toBytes (e : Endianness) : Address → List Nat
  | Address.Bits32 v => e.toBytes 4 v
  | Address.Bits64 v => e.toBytes 8 v

/-- Modelled from the spec: serialize a header record following the
input byte layout of spec section 6 (the source has no encode path;
this definition exists for the round-trip property). Words are laid
out in the record's endianness and the three addresses at the record's
word-size width. -/
def Header.encode (h : Header) : List Nat :=
  [0x7F, 0x45, 0x4C, 0x46,
   wordSizeByte h.word_size, endiannessByte h.endianness, 1,
   abiByte h.abi, h.abi_version] ++ List.replicate 7 0 ++
  h.endianness.toBytes 2 (typeCode h.type_) ++
  h.endianness.toBytes 2 h.machine ++
  h.endianness.toBytes 4 h.version ++
  Address.toBytes h.endianness h.entry_point ++
  Address.toBytes h.endianness h.program_header_address ++
  Address.toBytes h.endianness h.section_header_address ++
  h.endianness.toBytes 4 h.flags ++
  h.endianness.toBytes 2 h.header_size ++
  h.endianness.toBytes 2 h.program_header_entry_size ++
  h.endianness.toBytes 2 h.program_header_entry_count ++
  h.endianness.toBytes 2 h.section_header_entry_size ++
  h.endianness.toBytes 2 h.section_header_entry_count ++
  h.endianness.toBytes 2 h.section_header_name_entry_idx

/-- An address is well formed when its value fits its tagged width. -/
def Address.Wf : Address → Prop
  | Address.Bits32 v => v < 2 ^ 32
  | Address.Bits64 v => v < 2 ^ 64

instance : (a : Address) → Decidable a.Wf
  | Address.Bits32 v => inferInstanceAs (Decidable (v < 2 ^ 32))
  | Address.Bits64 v => inferInstanceAs (Decidable (v < 2 ^ 64))

/-- An object type is encodable when its code round-trips: the five
enumerated constructors always, an `Other` exactly at the four
reserved codes. -/
def Type_.Encodable : Type_ → Prop
  | Type_.Other v => v = 0xFE00 ∨ v = 0xFEFF ∨ v = 0xFF00 ∨ v = 0xFFFF
  | _ => True

instance : (t : Type_) → Decidable t.Encodable
  | Type_.Other v =>
    inferInstanceAs (Decidable (v = 0xFE00 ∨ v = 0xFEFF ∨ v = 0xFF00 ∨ v = 0xFFFF))
  | Type_.Unknown => inferInstanceAs (Decidable True)
  | Type_.Relocatable => inferInstanceAs (Decidable True)
  | Type_.Executable => inferInstanceAs (Decidable True)
  | Type_.SharedObject => inferInstanceAs (Decidable True)
  | Type_.Core => inferInstanceAs (Decidable True)

/-- A well-formed header record: every raw numeric field fits its bit
width, the object-type code round-trips, and each address is well
formed at a width matching the record's word size. -/
def Header.Valid (h : Header) : Prop :=
  h.abi_version < 2 ^ 8 ∧ h.machine < 2 ^ 16 ∧ h.version < 2 ^ 32 ∧
  h.flags < 2 ^ 32 ∧ h.header_size < 2 ^ 16 ∧
  h.program_header_entry_size < 2 ^ 16 ∧ h.program_header_entry_count < 2 ^ 16 ∧
  h.section_header_entry_size < 2 ^ 16 ∧ h.section_header_entry_count < 2 ^ 16 ∧
  h.section_header_name_entry_idx < 2 ^ 16 ∧
  h.type_.Encodable ∧
  h.entry_point.Wf ∧ h.program_header_address.Wf ∧ h.section_header_address.Wf ∧
  h.entry_point.width = h.word_size ∧
  h.program_header_address.width = h.word_size ∧
  h.section_header_address.width = h.word_size

instance (h : Header) : Decidable h.Valid := by
  unfold Header.Valid; infer_instance

/-! ### Reader-level lemmas -/

theorem take_length_append (g rest : List Nat) : (g ++ rest).take g.length = g := by
  induction g with
  | nil => rfl
  | cons b g ih => simp [List.take, ih]

theorem drop_length_append (g rest : List Nat) : (g ++ rest).drop g.length = rest := by
  induction g with
  | nil => rfl
  | cons b g ih => simp [List.drop, ih]

/-- `Reader.bytes` classified: it either fails with `truncated` leaving
the reader untouched, or returns the first `k` bytes and advances. -/
theorem Reader.bytes_spec (k : Nat) (r : Reader) :
    (r.input.length < k ∧ Reader.bytes k r = (Except.error DecodeError.truncated, r)) ∨
    (k ≤ r.input.length ∧ Reader.bytes k r =
      (Except.ok (r.input.take k),
       { input := r.input.drop k, consumed := r.consumed + k,
         endianness := r.endianness })) := by
  by_cases hk : k ≤ r.input.length
  · exact Or.inr ⟨hk, by simp [Reader.bytes, hk]⟩
  · exact Or.inl ⟨by omega, by simp [Reader.bytes, hk]⟩

/-- `Reader.bytes` on an input that starts with a block of exactly `k`
bytes returns that block and leaves the tail. -/
theorem Reader.bytes_exact (k : Nat) (g rest : List Nat) (c : Nat)
    (eo : Option Endianness) (hg : g.length = k) :
    Reader.bytes k { input := g ++ rest, consumed := c, endianness := eo } =
      (Except.ok g, { input := rest, consumed := c + k, endianness := eo }) := by
  subst hg
  have hlen : g.length ≤ (g ++ rest).length := by simp
  simp [Reader.bytes, hlen, take_length_append, drop_length_append]

/-- `Reader.byte` on a cons input. -/
theorem Reader.byte_cons (b : Nat) (rest : List Nat) (c : Nat)
    (eo : Option Endianness) :
    Reader.byte { input := b :: rest, consumed := c, endianness := eo } =
      (Except.ok b, { input := rest, consumed := c + 1, endianness := eo }) := by
  have := Reader.bytes_exact 1 [b] rest c eo rfl
  simp only [List.cons_append, List.nil_append] at this
  simp [Reader.byte, M.bind, this, M.pure]

/-- `Reader.byte` classified. -/
theorem Reader.byte_spec (r : Reader) :
    (r.input = [] ∧ Reader.byte r = (Except.error DecodeError.truncated, r)) ∨
    (∃ b rest, r.input = b :: rest ∧ Reader.byte r =
      (Except.ok b,
       { input := rest, consumed := r.consumed + 1, endianness := r.endianness })) := by
  obtain ⟨inp, c, eo⟩ := r
  match inp with
  | [] =>
    left
    exact ⟨rfl, by simp [Reader.byte, M.bind, Reader.bytes]⟩
  | b :: rest =>
    right
    exact ⟨b, rest, rfl, Reader.byte_cons b rest c eo⟩

/-- `Reader.word` classified: unresolved endianness (before touching
the stream), truncation, or a successful `k`-byte interpreted read. -/
theorem Reader.word_spec (k : Nat) (r : Reader) :
    (r.endianness = none ∧
      Reader.word k r = (Except.error (DecodeError.endiannessUnresolved (8 * k)), r)) ∨
    (Reader.word k r = (Except.error DecodeError.truncated, r)) ∨
    (∃ e, r.endianness = some e ∧ k ≤ r.input.length ∧
      Reader.word k r = (Except.ok (e.interp (r.input.take k)),
        { input := r.input.drop k, consumed := r.consumed + k,
          endianness := some e })) := by
  match he : r.endianness with
  | none => exact Or.inl ⟨rfl, by simp [Reader.word, he]⟩
  | some e =>
    rcases Reader.bytes_spec k r with ⟨hlt, h⟩ | ⟨hle, h⟩
    · exact Or.inr (Or.inl (by simp [Reader.word, he, h]))
    · exact Or.inr (Or.inr ⟨e, rfl, hle, by simp [Reader.word, he, h]⟩)

/-- `Reader.word` on an input that starts with a block of exactly `k`
bytes, with the endianness resolved. -/
theorem Reader.word_exact (k : Nat) (e : Endianness) (g rest : List Nat) (c : Nat)
    (hg : g.length = k) :
    Reader.word k { input := g ++ rest, consumed := c, endianness := some e } =
      (Except.ok (e.interp g),
       { input := rest, consumed := c + k, endianness := some e }) := by
  simp [Reader.word, Reader.bytes_exact k g rest c (some e) hg]

/-! ### Numeric encode/decode lemmas -/

theorem toLeBytes_length (n w : Nat) : (toLeBytes n w).length = w := by
  induction w generalizing n with
  | zero => rfl
  | succ w ih => simp [toLeBytes, ih]

theorem toBytes_length (e : Endianness) (w n : Nat) : (e.toBytes w n).length = w := by
  cases e <;> simp [Endianness.toBytes, toLeBytes_length]

theorem fromLeBytes_nil : fromLeBytes [] = 0 := rfl

theorem fromLeBytes_cons (b : Nat) (bs : List Nat) :
    fromLeBytes (b :: bs) = b + 256 * fromLeBytes bs := rfl

theorem fromLeBytes_toLeBytes (w n : Nat) (h : n < 256 ^ w) :
    fromLeBytes (toLeBytes n w) = n := by
  induction w generalizing n with
  | zero =>
    interval_cases n
    rfl
  | succ w ih =>
    have hdiv : n / 256 < 256 ^ w := by
      rw [Nat.div_lt_iff_lt_mul (by norm_num)]
      calc n < 256 ^ (w + 1) := h
        _ = 256 ^ w * 256 := by ring
    rw [toLeBytes, fromLeBytes_cons, ih (n / 256) hdiv]
    omega

theorem fromBeBytes_reverse (bs : List Nat) :
    fromBeBytes bs.reverse = fromLeBytes bs := by
  induction bs with
  | nil => rfl
  | cons b bs ih =>
    rw [fromLeBytes_cons, ← ih]
    simp only [List.reverse_cons, fromBeBytes, List.foldl_append, List.foldl_cons,
      List.foldl_nil]
    omega

/-- Interpreting the `w`-byte encoding of a value below `256 ^ w` in the
same endianness returns the value. -/
theorem interp_toBytes (e : Endianness) (w n : Nat) (h : n < 256 ^ w) :
    e.interp (e.toBytes w n) = n := by
  cases e with
  | Little => exact fromLeBytes_toLeBytes w n h
  | Big =>
    show fromBeBytes (toLeBytes n w).reverse = n
    rw [fromBeBytes_reverse]
    exact fromLeBytes_toLeBytes w n h

/-! ### Mapping round-trip lemmas -/

theorem wordSizeOfByte_wordSizeByte (ws : WordSize) :
    wordSizeOfByte (wordSizeByte ws) = some ws := by
  cases ws <;> rfl

theorem endiannessOfByte_endiannessByte (e : Endianness) :
    endiannessOfByte (endiannessByte e) = some e := by
  cases e <;> rfl

theorem abiOfByte_abiByte (a : Abi) : abiOfByte (abiByte a) = some a := by
  cases a <;> rfl

theorem abiByte_lt (a : Abi) : abiByte a < 256 := by
  cases a <;> simp [abiByte]

theorem typeOfU16_typeCode (t : Type_) (ht : t.Encodable) :
    typeOfU16 (typeCode t) = some t := by
  cases t with
  | Other v =>
    rcases ht with rfl | rfl | rfl | rfl <;> rfl
  | Unknown => rfl
  | Relocatable => rfl
  | Executable => rfl
  | SharedObject => rfl
  | Core => rfl

theorem typeCode_lt (t : Type_) (ht : t.Encodable) : typeCode t < 2 ^ 16 := by
  cases t with
  | Other v => rcases ht with rfl | rfl | rfl | rfl <;> norm_num [typeCode]
  | Unknown => norm_num [typeCode]
  | Relocatable => norm_num [typeCode]
  | Executable => norm_num [typeCode]
  | SharedObject => norm_num [typeCode]
  | Core => norm_num [typeCode]

/-! ### Inversion lemmas for the reader computations -/

theorem M.bind_eq_ok {α β : Type} (m : M α) (f : α → M β) (r r' : Reader) (b : β)
    (H : M.bind m f r = (Except.ok b, r')) :
    ∃ a rm, m r = (Except.ok a, rm) ∧ f a rm = (Except.ok b, r') := by
  unfold M.bind at H
  rcases hm : m r with ⟨res, rm⟩
  rw [hm] at H
  cases res with
  | ok a => exact ⟨a, rm, rfl, H⟩
  | error e => simp at H

theorem M.pure_eq_ok {α : Type} (a : α) (r r' : Reader) (b : α)
    (H : M.pure a r = (Except.ok b, r')) : b = a ∧ r' = r := by
  unfold M.pure at H
  obtain ⟨h1, h2⟩ := Prod.mk.injEq .. ▸ H
  exact ⟨(Except.ok.injEq .. ▸ h1).symm, h2.symm⟩

theorem Reader.word_eq_ok (k : Nat) (r : Reader) (n : Nat) (r' : Reader)
    (H : Reader.word k r = (Except.ok n, r')) :
    r'.consumed = r.consumed + k ∧ r'.endianness = r.endianness := by
  rcases Reader.word_spec k r with ⟨_, hw⟩ | hw | ⟨e, he, _, hw⟩ <;> rw [hw] at H
  · simp at H
  · simp at H
  · obtain ⟨-, rfl⟩ := Prod.mk.injEq .. ▸ H
    exact ⟨rfl, he.symm⟩

theorem Reader.byte_eq_ok (r : Reader) (n : Nat) (r' : Reader)
    (H : Reader.byte r = (Except.ok n, r')) :
    r'.consumed = r.consumed + 1 ∧ r'.endianness = r.endianness := by
  rcases Reader.byte_spec r with ⟨_, hw⟩ | ⟨b, rest, _, hw⟩ <;> rw [hw] at H
  · simp at H
  · obtain ⟨-, rfl⟩ := Prod.mk.injEq .. ▸ H
    exact ⟨rfl, rfl⟩

theorem Reader.bytes_eq_ok (k : Nat) (r : Reader) (bs : List Nat) (r' : Reader)
    (H : Reader.bytes k r = (Except.ok bs, r')) :
    r'.consumed = r.consumed + k ∧ r'.endianness = r.endianness := by
  rcases Reader.bytes_spec k r with ⟨_, hw⟩ | ⟨_, hw⟩ <;> rw [hw] at H
  · simp at H
  · obtain ⟨-, rfl⟩ := Prod.mk.injEq .. ▸ H
    exact ⟨rfl, rfl⟩

theorem Reader.setEndianness_eq (e : Endianness) (r : Reader) :
    Reader.setEndianness e r =
      (Except.ok (), { r with endianness := some e }) := rfl

/-! ### Success facts for each decode stage -/

/-- A successful run of the scalar-field stage returns a record whose
first ten fields are exactly the parameters, consumes 16 bytes, and
leaves the endianness as it was. -/
theorem Header.readScalars_ok (ws : WordSize) (e : Endianness) (a : Abi)
    (av : Nat) (t : Type_) (m v : Nat) (a1 a2 a3 : Address) (r : Reader)
    (h : Header) (r' : Reader)
    (H : Header.readScalars ws e a av t m v a1 a2 a3 r = (Except.ok h, r')) :
    h.word_size = ws ∧ h.endianness = e ∧ h.abi = a ∧ h.abi_version = av ∧
    h.type_ = t ∧ h.machine = m ∧ h.version = v ∧
    h.entry_point = a1 ∧ h.program_header_address = a2 ∧
    h.section_header_address = a3 ∧
    r'.consumed = r.consumed + 16 ∧ r'.endianness = r.endianness := by
  unfold Header.readScalars at H
  obtain ⟨flags, r1, h1, H⟩ := M.bind_eq_ok _ _ _ _ _ H
  obtain ⟨f1, r2, h2, H⟩ := M.bind_eq_ok _ _ _ _ _ H
  obtain ⟨f2, r3, h3, H⟩ := M.bind_eq_ok _ _ _ _ _ H
  obtain ⟨f3, r4, h4, H⟩ := M.bind_eq_ok _ _ _ _ _ H
  obtain ⟨f4, r5, h5, H⟩ := M.bind_eq_ok _ _ _ _ _ H
  obtain ⟨f5, r6, h6, H⟩ := M.bind_eq_ok _ _ _ _ _ H
  obtain ⟨f6, r7, h7, H⟩ := M.bind_eq_ok _ _ _ _ _ H
  obtain ⟨rfl, rfl⟩ := M.pure_eq_ok _ _ _ _ H
  obtain ⟨c1, e1⟩ := Reader.word_eq_ok _ _ _ _ h1
  obtain ⟨c2, e2⟩ := Reader.word_eq_ok _ _ _ _ h2
  obtain ⟨c3, e3⟩ := Reader.word_eq_ok _ _ _ _ h3
  obtain ⟨c4, e4⟩ := Reader.word_eq_ok _ _ _ _ h4
  obtain ⟨c5, e5⟩ := Reader.word_eq_ok _ _ _ _ h5
  obtain ⟨c6, e6⟩ := Reader.word_eq_ok _ _ _ _ h6
  obtain ⟨c7, e7⟩ := Reader.word_eq_ok _ _ _ _ h7
  refine ⟨rfl, rfl, rfl, rfl, rfl, rfl, rfl, rfl, rfl, rfl, by omega, ?_⟩
  rw [e7, e6, e5, e4, e3, e2, e1]

/-- A successful run of the address stage: the carried fields are the
parameters, the three addresses' width tags all equal the word size,
the stage consumes 28 bytes in 32-bit mode and 40 in 64-bit mode, and
the endianness is untouched. -/
theorem Header.readAddrs_ok (ws : WordSize) (e : Endianness) (a : Abi)
    (av : Nat) (t : Type_) (m v : Nat) (r : Reader) (h : Header) (r' : Reader)
    (H : Header.readAddrs ws e a av t m v r = (Except.ok h, r')) :
    h.word_size = ws ∧ h.endianness = e ∧ h.abi = a ∧ h.abi_version = av ∧
    h.type_ = t ∧ h.machine = m ∧ h.version = v ∧
    h.entry_point.width = ws ∧ h.program_header_address.width = ws ∧
    h.section_header_address.width = ws ∧
    r'.consumed = r.consumed + 3 * ws.addrSize + 16 ∧
    r'.endianness = r.endianness := by
  cases ws with
  | Bits32 =>
    unfold Header.readAddrs at H
    obtain ⟨x1, r1, h1, H⟩ := M.bind_eq_ok _ _ _ _ _ H
    obtain ⟨x2, r2, h2, H⟩ := M.bind_eq_ok _ _ _ _ _ H
    obtain ⟨x3, r3, h3, H⟩ := M.bind_eq_ok _ _ _ _ _ H
    obtain ⟨f1, f2, f3, f4, f5, f6, f7, f8, f9, f10, hc, he⟩ :=
      Header.readScalars_ok _ _ _ _ _ _ _ _ _ _ _ _ _ H
    obtain ⟨c1, e1⟩ := Reader.word_eq_ok _ _ _ _ h1
    obtain ⟨c2, e2⟩ := Reader.word_eq_ok _ _ _ _ h2
    obtain ⟨c3, e3⟩ := Reader.word_eq_ok _ _ _ _ h3
    refine ⟨f1, f2, f3, f4, f5, f6, f7, ?_, ?_, ?_,
      by simp only [WordSize.addrSize]; omega, by rw [he, e3, e2, e1]⟩
    · rw [f8]; rfl
    · rw [f9]; rfl
    · rw [f10]; rfl
  | Bits64 =>
    unfold Header.readAddrs at H
    obtain ⟨x1, r1, h1, H⟩ := M.bind_eq_ok _ _ _ _ _ H
    obtain ⟨x2, r2, h2, H⟩ := M.bind_eq_ok _ _ _ _ _ H
    obtain ⟨x3, r3, h3, H⟩ := M.bind_eq_ok _ _ _ _ _ H
    obtain ⟨f1, f2, f3, f4, f5, f6, f7, f8, f9, f10, hc, he⟩ :=
      Header.readScalars_ok _ _ _ _ _ _ _ _ _ _ _ _ _ H
    obtain ⟨c1, e1⟩ := Reader.word_eq_ok _ _ _ _ h1
    obtain ⟨c2, e2⟩ := Reader.word_eq_ok _ _ _ _ h2
    obtain ⟨c3, e3⟩ := Reader.word_eq_ok _ _ _ _ h3
    refine ⟨f1, f2, f3, f4, f5, f6, f7, ?_, ?_, ?_,
      by simp only [WordSize.addrSize]; omega, by rw [he, e3, e2, e1]⟩
    · rw [f8]; rfl
    · rw [f9]; rfl
    · rw [f10]; rfl

theorem M.fail_eq_ok {α : Type} (err : DecodeError) (r r' : Reader) (b : α)
    (H : M.fail err r = (Except.ok b, r')) : False := by
  simp [M.fail] at H

/-- A successful run of the machine/version stage. -/
theorem Header.readAfterType_ok (ws : WordSize) (e : Endianness) (a : Abi)
    (av : Nat) (t : Type_) (r : Reader) (h : Header) (r' : Reader)
    (H : Header.readAfterType ws e a av t r = (Except.ok h, r')) :
    h.word_size = ws ∧ h.endianness = e ∧ h.abi = a ∧ h.abi_version = av ∧
    h.type_ = t ∧
    h.entry_point.width = ws ∧ h.program_header_address.width = ws ∧
    h.section_header_address.width = ws ∧
    r'.consumed = r.consumed + 3 * ws.addrSize + 22 ∧
    r'.endianness = r.endianness := by
  unfold Header.readAfterType at H
  obtain ⟨m, r1, h1, H⟩ := M.bind_eq_ok _ _ _ _ _ H
  obtain ⟨v, r2, h2, H⟩ := M.bind_eq_ok _ _ _ _ _ H
  obtain ⟨f1, f2, f3, f4, f5, -, -, w1, w2, w3, hc, he⟩ :=
    Header.readAddrs_ok _ _ _ _ _ _ _ _ _ _ H
  obtain ⟨c1, e1⟩ := Reader.word_eq_ok _ _ _ _ h1
  obtain ⟨c2, e2⟩ := Reader.word_eq_ok _ _ _ _ h2
  exact ⟨f1, f2, f3, f4, f5, w1, w2, w3, by omega, by rw [he, e2, e1]⟩

/-- A successful run of the object-type stage. -/
theorem Header.readMulti_ok (ws : WordSize) (e : Endianness) (a : Abi)
    (av : Nat) (r : Reader) (h : Header) (r' : Reader)
    (H : Header.readMulti ws e a av r = (Except.ok h, r')) :
    h.word_size = ws ∧ h.endianness = e ∧ h.abi = a ∧ h.abi_version = av ∧
    h.entry_point.width = ws ∧ h.program_header_address.width = ws ∧
    h.section_header_address.width = ws ∧
    r'.consumed = r.consumed + 3 * ws.addrSize + 24 ∧
    r'.endianness = r.endianness := by
  unfold Header.readMulti at H
  obtain ⟨tv, r1, h1, H⟩ := M.bind_eq_ok _ _ _ _ _ H
  rcases htv : typeOfU16 tv with - | t <;> rw [htv] at H
  · exact absurd H (fun H => M.fail_eq_ok _ _ _ _ H)
  · obtain ⟨f1, f2, f3, f4, -, w1, w2, w3, hc, he⟩ :=
      Header.readAfterType_ok _ _ _ _ _ _ _ _ H
    obtain ⟨c1, e1⟩ := Reader.word_eq_ok _ _ _ _ h1
    exact ⟨f1, f2, f3, f4, w1, w2, w3, by omega, by rw [he, e1]⟩

/-- A successful run of the ABI-version/padding stage. -/
theorem Header.readAfterAbi_ok (ws : WordSize) (e : Endianness) (a : Abi)
    (r : Reader) (h : Header) (r' : Reader)
    (H : Header.readAfterAbi ws e a r = (Except.ok h, r')) :
    h.word_size = ws ∧ h.endianness = e ∧ h.abi = a ∧
    h.entry_point.width = ws ∧ h.program_header_address.width = ws ∧
    h.section_header_address.width = ws ∧
    r'.consumed = r.consumed + 3 * ws.addrSize + 32 ∧
    r'.endianness = r.endianness := by
  unfold Header.readAfterAbi at H
  obtain ⟨av, r1, h1, H⟩ := M.bind_eq_ok _ _ _ _ _ H
  obtain ⟨pad, r2, h2, H⟩ := M.bind_eq_ok _ _ _ _ _ H
  obtain ⟨f1, f2, f3, -, w1, w2, w3, hc, he⟩ :=
    Header.readMulti_ok _ _ _ _ _ _ _ H
  obtain ⟨c1, e1⟩ := Reader.byte_eq_ok _ _ _ h1
  obtain ⟨c2, e2⟩ := Reader.bytes_eq_ok _ _ _ _ h2
  exact ⟨f1, f2, f3, w1, w2, w3, by omega, by rw [he, e2, e1]⟩

/-- A successful run of the identifier-version/ABI stage. -/
theorem Header.readIdentTail_ok (ws : WordSize) (e : Endianness)
    (r : Reader) (h : Header) (r' : Reader)
    (H : Header.readIdentTail ws e r = (Except.ok h, r')) :
    h.word_size = ws ∧ h.endianness = e ∧
    h.entry_point.width = ws ∧ h.program_header_address.width = ws ∧
    h.section_header_address.width = ws ∧
    r'.consumed = r.consumed + 3 * ws.addrSize + 34 ∧
    r'.endianness = r.endianness := by
  unfold Header.readIdentTail at H
  obtain ⟨iv, r1, h1, H⟩ := M.bind_eq_ok _ _ _ _ _ H
  by_cases hiv : iv = 1
  · rw [if_pos hiv] at H
    obtain ⟨ab, r2, h2, H⟩ := M.bind_eq_ok _ _ _ _ _ H
    rcases hab : abiOfByte ab with - | a <;> rw [hab] at H
    · exact absurd H (fun H => M.fail_eq_ok _ _ _ _ H)
    · obtain ⟨f1, f2, -, w1, w2, w3, hc, he⟩ :=
        Header.readAfterAbi_ok _ _ _ _ _ _ H
      obtain ⟨c1, e1⟩ := Reader.byte_eq_ok _ _ _ h1
      obtain ⟨c2, e2⟩ := Reader.byte_eq_ok _ _ _ h2
      exact ⟨f1, f2, w1, w2, w3, by omega, by rw [he, e2, e1]⟩
  · rw [if_neg hiv] at H
    exact absurd H (fun H => M.fail_eq_ok _ _ _ _ H)

/-- A successful run of the endianness stage: the record's endianness
is the one that was registered on the reader, and the reader comes out
with exactly that endianness resolved. -/
theorem Header.readAfterWordSize_ok (ws : WordSize)
    (r : Reader) (h : Header) (r' : Reader)
    (H : Header.readAfterWordSize ws r = (Except.ok h, r')) :
    h.word_size = ws ∧
    h.entry_point.width = ws ∧ h.program_header_address.width = ws ∧
    h.section_header_address.width = ws ∧
    r'.consumed = r.consumed + 3 * ws.addrSize + 35 ∧
    r'.endianness = some h.endianness := by
  unfold Header.readAfterWordSize at H
  obtain ⟨eb, r1, h1, H⟩ := M.bind_eq_ok _ _ _ _ _ H
  rcases heb : endiannessOfByte eb with - | e <;> rw [heb] at H
  · exact absurd H (fun H => M.fail_eq_ok _ _ _ _ H)
  · obtain ⟨u, r2, h2, H⟩ := M.bind_eq_ok _ _ _ _ _ H
    rw [Reader.setEndianness_eq] at h2
    obtain ⟨-, h2⟩ := Prod.mk.injEq .. ▸ h2
    obtain ⟨f1, f2, w1, w2, w3, hc, he⟩ :=
      Header.readIdentTail_ok _ _ _ _ _ H
    obtain ⟨c1, e1⟩ := Reader.byte_eq_ok _ _ _ h1
    refine ⟨f1, w1, w2, w3, ?_, ?_⟩
    · have : r2.consumed = r1.consumed := by rw [← h2]
      omega
    · rw [he, ← h2, f2]

/-- Every successful run of `Header.read`: the three addresses' width
tags match the record's word size, the decode consumes exactly
`52` bytes in 32-bit mode and `64` in 64-bit mode, and the reader ends
with the record's endianness resolved. -/
theorem Header.read_ok (r : Reader) (h : Header) (r' : Reader)
    (H : Header.read r = (Except.ok h, r')) :
    h.entry_point.width = h.word_size ∧
    h.program_header_address.width = h.word_size ∧
    h.section_header_address.width = h.word_size ∧
    r'.consumed = r.consumed + 3 * h.word_size.addrSize + 40 ∧
    r'.endianness = some h.endianness := by
  unfold Header.read at H
  obtain ⟨mg, r1, h1, H⟩ := M.bind_eq_ok _ _ _ _ _ H
  by_cases hmg : mg = [0x7F, 0x45, 0x4C, 0x46]
  · rw [if_pos hmg] at H
    obtain ⟨wsb, r2, h2, H⟩ := M.bind_eq_ok _ _ _ _ _ H
    rcases hws : wordSizeOfByte wsb with - | ws <;> rw [hws] at H
    · exact absurd H (fun H => M.fail_eq_ok _ _ _ _ H)
    · obtain ⟨f1, w1, w2, w3, hc, he⟩ := Header.readAfterWordSize_ok _ _ _ _ H
      obtain ⟨c1, e1⟩ := Reader.bytes_eq_ok _ _ _ _ h1
      obtain ⟨c2, e2⟩ := Reader.byte_eq_ok _ _ _ h2
      subst f1
      exact ⟨w1, w2, w3, by omega, he⟩
  · rw [if_neg hmg] at H
    exact absurd H (fun H => M.fail_eq_ok _ _ _ _ H)

/-! ### Evaluation of the decode on shaped inputs -/

theorem Reader.bytes4_cons (b0 b1 b2 b3 : Nat) (rest : List Nat) (c : Nat)
    (eo : Option Endianness) :
    Reader.bytes 4 { input := b0 :: b1 :: b2 :: b3 :: rest, consumed := c, endianness := eo } =
      (Except.ok [b0, b1, b2, b3],
       { input := rest, consumed := c + 4, endianness := eo }) :=
  Reader.bytes_exact 4 [b0, b1, b2, b3] rest c eo rfl

/-- The decode through the magic, word-size and endianness bytes: with
a valid word-size byte and a valid endianness byte, the run reaches the
identifier tail with six bytes consumed and the endianness registered. -/
theorem Header.read_run (wsb enb : Nat) (ws : WordSize) (e : Endianness)
    (rest : List Nat) (hws : wordSizeOfByte wsb = some ws)
    (hen : endiannessOfByte enb = some e) :
    Header.read (Reader.new ([0x7F, 0x45, 0x4C, 0x46, wsb, enb] ++ rest)) =
      Header.readIdentTail ws e
        { input := rest, consumed := 6, endianness := some e } := by
  unfold Header.read Header.readAfterWordSize M.bind Reader.new
  simp only [List.cons_append, List.nil_append, Reader.bytes4_cons,
    Reader.byte_cons, hws, hen, Reader.setEndianness, if_true]

/-- The identifier tail on a version byte 1 and a valid ABI byte. -/
theorem Header.readIdentTail_run (ws : WordSize) (e : Endianness) (a : Abi)
    (ab : Nat) (hab : abiOfByte ab = some a) (rest : List Nat) (c : Nat) :
    Header.readIdentTail ws e
        { input := 1 :: ab :: rest, consumed := c, endianness := some e } =
      Header.readAfterAbi ws e a
        { input := rest, consumed := c + 2, endianness := some e } := by
  simp only [Header.readIdentTail, M.bind, Reader.byte_cons, hab, if_pos]

/-- The ABI-version byte and the seven padding bytes. -/
theorem Header.readAfterAbi_run (ws : WordSize) (e : Endianness) (a : Abi)
    (av : Nat) (pad rest : List Nat) (hpad : pad.length = 7) (c : Nat) :
    Header.readAfterAbi ws e a
        { input := av :: (pad ++ rest), consumed := c, endianness := some e } =
      Header.readMulti ws e a av
        { input := rest, consumed := c + 8, endianness := some e } := by
  simp only [Header.readAfterAbi, M.bind, Reader.byte_cons,
    Reader.bytes_exact 7 pad rest (c + 1) (some e) hpad]

/-- The object-type field on a two-byte group that decodes to a valid
type. -/
theorem Header.readMulti_run (ws : WordSize) (e : Endianness) (a : Abi)
    (av : Nat) (t : Type_) (g rest : List Nat) (hg : g.length = 2)
    (ht : typeOfU16 (e.interp g) = some t) (c : Nat) :
    Header.readMulti ws e a av
        { input := g ++ rest, consumed := c, endianness := some e } =
      Header.readAfterType ws e a av t
        { input := rest, consumed := c + 2, endianness := some e } := by
  simp only [Header.readMulti, M.bind, Reader.u16,
    Reader.word_exact 2 e g rest c hg, ht]

/-- The object-type field on a two-byte group that decodes to no valid
type: the decode fails with `invalidType` carrying the decoded value. -/
theorem Header.readMulti_fail (ws : WordSize) (e : Endianness) (a : Abi)
    (av : Nat) (g rest : List Nat) (hg : g.length = 2)
    (ht : typeOfU16 (e.interp g) = none) (c : Nat) :
    Header.readMulti ws e a av
        { input := g ++ rest, consumed := c, endianness := some e } =
      (Except.error (DecodeError.invalidType (e.interp g)),
       { input := rest, consumed := c + 2, endianness := some e }) := by
  simp only [Header.readMulti, M.bind, Reader.u16,
    Reader.word_exact 2 e g rest c hg, ht, M.fail]

/-- The machine and version fields. -/
theorem Header.readAfterType_run (ws : WordSize) (e : Endianness) (a : Abi)
    (av : Nat) (t : Type_) (g1 g2 rest : List Nat) (h1 : g1.length = 2)
    (h2 : g2.length = 4) (c : Nat) :
    Header.readAfterType ws e a av t
        { input := g1 ++ (g2 ++ rest), consumed := c, endianness := some e } =
      Header.readAddrs ws e a av t (e.interp g1) (e.interp g2)
        { input := rest, consumed := c + 6, endianness := some e } := by
  simp only [Header.readAfterType, M.bind, Reader.u16, Reader.u32,
    Reader.word_exact 2 e g1 (g2 ++ rest) c h1,
    Reader.word_exact 4 e g2 rest (c + 2) h2]

/-- The three 32-bit addresses. -/
theorem Header.readAddrs_run32 (e : Endianness) (a : Abi) (av : Nat)
    (t : Type_) (m v : Nat) (g1 g2 g3 rest : List Nat) (h1 : g1.length = 4)
    (h2 : g2.length = 4) (h3 : g3.length = 4) (c : Nat) :
    Header.readAddrs WordSize.Bits32 e a av t m v
        { input := g1 ++ (g2 ++ (g3 ++ rest)), consumed := c, endianness := some e } =
      Header.readScalars WordSize.Bits32 e a av t m v
        (Address.Bits32 (e.interp g1)) (Address.Bits32 (e.interp g2))
        (Address.Bits32 (e.interp g3))
        { input := rest, consumed := c + 12, endianness := some e } := by
  simp only [Header.readAddrs, M.bind, Reader.u32,
    Reader.word_exact 4 e g1 (g2 ++ (g3 ++ rest)) c h1,
    Reader.word_exact 4 e g2 (g3 ++ rest) (c + 4) h2,
    Reader.word_exact 4 e g3 rest (c + 4 + 4) h3]

/-- The three 64-bit addresses. -/
theorem Header.readAddrs_run64 (e : Endianness) (a : Abi) (av : Nat)
    (t : Type_) (m v : Nat) (g1 g2 g3 rest : List Nat) (h1 : g1.length = 8)
    (h2 : g2.length = 8) (h3 : g3.length = 8) (c : Nat) :
    Header.readAddrs WordSize.Bits64 e a av t m v
        { input := g1 ++ (g2 ++ (g3 ++ rest)), consumed := c, endianness := some e } =
      Header.readScalars WordSize.Bits64 e a av t m v
        (Address.Bits64 (e.interp g1)) (Address.Bits64 (e.interp g2))
        (Address.Bits64 (e.interp g3))
        { input := rest, consumed := c + 24, endianness := some e } := by
  simp only [Header.readAddrs, M.bind, Reader.u64,
    Reader.word_exact 8 e g1 (g2 ++ (g3 ++ rest)) c h1,
    Reader.word_exact 8 e g2 (g3 ++ rest) (c + 8) h2,
    Reader.word_exact 8 e g3 rest (c + 8 + 8) h3]

/-- The trailing scalar fields, assembling the record. -/
theorem Header.readScalars_run (ws : WordSize) (e : Endianness) (a : Abi)
    (av : Nat) (t : Type_) (m v : Nat) (a1 a2 a3 : Address)
    (g1 g2 g3 g4 g5 g6 g7 rest : List Nat) (h1 : g1.length = 4)
    (h2 : g2.length = 2) (h3 : g3.length = 2) (h4 : g4.length = 2)
    (h5 : g5.length = 2) (h6 : g6.length = 2) (h7 : g7.length = 2) (c : Nat) :
    Header.readScalars ws e a av t m v a1 a2 a3
        { input := g1 ++ (g2 ++ (g3 ++ (g4 ++ (g5 ++ (g6 ++ (g7 ++ rest)))))), consumed := c, endianness := some e } =
      (Except.ok
        { word_size := ws
          endianness := e
          abi := a
          abi_version := av
          type_ := t
          machine := m
          version := v
          entry_point := a1
          program_header_address := a2
          section_header_address := a3
          flags := e.interp g1
          header_size := e.interp g2
          program_header_entry_size := e.interp g3
          program_header_entry_count := e.interp g4
          section_header_entry_size := e.interp g5
          section_header_entry_count := e.interp g6
          section_header_name_entry_idx := e.interp g7 },
       { input := rest, consumed := c + 16, endianness := some e }) := by
  simp only [Header.readScalars, M.bind, Reader.u16, Reader.u32,
    Reader.word_exact 4 e g1 _ c h1,
    Reader.word_exact 2 e g2 _ (c + 4) h2,
    Reader.word_exact 2 e g3 _ (c + 4 + 2) h3,
    Reader.word_exact 2 e g4 _ (c + 4 + 2 + 2) h4,
    Reader.word_exact 2 e g5 _ (c + 4 + 2 + 2 + 2) h5,
    Reader.word_exact 2 e g6 _ (c + 4 + 2 + 2 + 2 + 2) h6,
    Reader.word_exact 2 e g7 _ (c + 4 + 2 + 2 + 2 + 2 + 2) h7, M.pure]

/-! ### Failure paths of the decode -/

/-- A magic mismatch: with at least four bytes available and a first
four-byte block other than `7F 45 4C 46`, the decode fails with
`notAnElfFile` having consumed exactly those four bytes. -/
theorem Header.read_fail_magic (input : List Nat) (h4 : 4 ≤ input.length)
    (hm : input.take 4 ≠ [0x7F, 0x45, 0x4C, 0x46]) :
    Header.read (Reader.new input) =
      (Except.error DecodeError.notAnElfFile,
       { input := input.drop 4, consumed := 4, endianness := none }) := by
  rcases Reader.bytes_spec 4 (Reader.new input) with ⟨hlt, hb⟩ | ⟨-, hb⟩
  · exfalso
    simp only [Reader.new] at hlt
    omega
  · unfold Header.read M.bind
    rw [hb]
    simp [Reader.new, hm, M.fail]

/-- The decode through the magic and a valid word-size byte, reaching
the endianness stage with five bytes consumed. -/
theorem Header.read_run_ws (wsb : Nat) (ws : WordSize) (rest : List Nat)
    (hws : wordSizeOfByte wsb = some ws) :
    Header.read (Reader.new ([0x7F, 0x45, 0x4C, 0x46, wsb] ++ rest)) =
      Header.readAfterWordSize ws
        { input := rest, consumed := 5, endianness := none } := by
  unfold Header.read M.bind Reader.new
  simp only [List.cons_append, List.nil_append, Reader.bytes4_cons,
    Reader.byte_cons, hws, if_true]

/-- An invalid word-size byte: the decode fails with `invalidWordSize`
carrying that byte, the endianness byte not yet consumed. -/
theorem Header.read_fail_ws (wsb : Nat) (rest : List Nat)
    (hws : wordSizeOfByte wsb = none) :
    Header.read (Reader.new ([0x7F, 0x45, 0x4C, 0x46, wsb] ++ rest)) =
      (Except.error (DecodeError.invalidWordSize wsb),
       { input := rest, consumed := 5, endianness := none }) := by
  unfold Header.read M.bind Reader.new
  simp only [List.cons_append, List.nil_append, Reader.bytes4_cons,
    Reader.byte_cons, hws, if_true, M.fail]

/-- An invalid endianness byte: the endianness stage fails with
`invalidEndianness` carrying that byte, without registering any
endianness and without reading further. -/
theorem Header.readAfterWordSize_fail (ws : WordSize) (en : Nat)
    (hen : endiannessOfByte en = none) (rest : List Nat) (c : Nat)
    (eo : Option Endianness) :
    Header.readAfterWordSize ws
        { input := en :: rest, consumed := c, endianness := eo } =
      (Except.error (DecodeError.invalidEndianness en),
       { input := rest, consumed := c + 1, endianness := eo }) := by
  unfold Header.readAfterWordSize M.bind
  simp only [Reader.byte_cons, hen, M.fail]

/-- An invalid ABI byte after a version byte 1: the identifier tail
fails with `invalidAbi` carrying that byte. -/
theorem Header.readIdentTail_fail_abi (ws : WordSize) (e : Endianness)
    (ab : Nat) (hab : abiOfByte ab = none) (rest : List Nat) (c : Nat) :
    Header.readIdentTail ws e
        { input := 1 :: ab :: rest, consumed := c, endianness := some e } =
      (Except.error (DecodeError.invalidAbi ab),
       { input := rest, consumed := c + 2, endianness := some e }) := by
  unfold Header.readIdentTail M.bind
  simp only [Reader.byte_cons, hab, if_true, M.fail]

/-! ### Error classification for each stage -/

theorem M.bind_eq_error {α β : Type} (m : M α) (f : α → M β) (r r' : Reader)
    (err : DecodeError) (H : M.bind m f r = (Except.error err, r')) :
    m r = (Except.error err, r') ∨
    ∃ a rm, m r = (Except.ok a, rm) ∧ f a rm = (Except.error err, r') := by
  unfold M.bind at H
  rcases hm : m r with ⟨res, rm⟩
  rw [hm] at H
  cases res with
  | ok a => exact Or.inr ⟨a, rm, rfl, H⟩
  | error e =>
    left
    simpa using H

theorem M.pure_eq_error {α : Type} (a : α) (r r' : Reader) (err : DecodeError)
    (H : M.pure a r = (Except.error err, r')) : False := by
  simp [M.pure] at H

theorem M.fail_eq_error {α : Type} (e0 : DecodeError) (r r' : Reader)
    (err : DecodeError) (H : (M.fail e0 : M α) r = (Except.error err, r')) :
    err = e0 := by
  unfold M.fail at H
  obtain ⟨h1, -⟩ := Prod.mk.injEq .. ▸ H
  exact (Except.error.injEq .. ▸ h1).symm

theorem Reader.word_eq_error (k : Nat) (r : Reader) (err : DecodeError)
    (r' : Reader) (H : Reader.word k r = (Except.error err, r')) :
    err = DecodeError.truncated ∨
    (err = DecodeError.endiannessUnresolved (8 * k) ∧ r.endianness = none) := by
  rcases Reader.word_spec k r with ⟨he, hw⟩ | hw | ⟨e, he, -, hw⟩ <;> rw [hw] at H
  · obtain ⟨h1, -⟩ := Prod.mk.injEq .. ▸ H
    exact Or.inr ⟨(Except.error.injEq .. ▸ h1).symm, he⟩
  · obtain ⟨h1, -⟩ := Prod.mk.injEq .. ▸ H
    exact Or.inl (Except.error.injEq .. ▸ h1).symm
  · simp at H

theorem Reader.byte_eq_error (r : Reader) (err : DecodeError) (r' : Reader)
    (H : Reader.byte r = (Except.error err, r')) :
    err = DecodeError.truncated := by
  rcases Reader.byte_spec r with ⟨-, hw⟩ | ⟨b, rest, -, hw⟩ <;> rw [hw] at H
  · obtain ⟨h1, -⟩ := Prod.mk.injEq .. ▸ H
    exact (Except.error.injEq .. ▸ h1).symm
  · simp at H

theorem Reader.bytes_eq_error (k : Nat) (r : Reader) (err : DecodeError)
    (r' : Reader) (H : Reader.bytes k r = (Except.error err, r')) :
    err = DecodeError.truncated := by
  rcases Reader.bytes_spec k r with ⟨-, hw⟩ | ⟨-, hw⟩ <;> rw [hw] at H
  · obtain ⟨h1, -⟩ := Prod.mk.injEq .. ▸ H
    exact (Except.error.injEq .. ▸ h1).symm
  · simp at H

/-- Every failure of the scalar stage is a truncation, or an
unresolved-endianness report possible only when the reader's
endianness is still unset. -/
theorem Header.readScalars_error (ws : WordSize) (e : Endianness) (a : Abi)
    (av : Nat) (t : Type_) (m v : Nat) (a1 a2 a3 : Address) (r r' : Reader)
    (err : DecodeError)
    (H : Header.readScalars ws e a av t m v a1 a2 a3 r = (Except.error err, r')) :
    err = DecodeError.truncated ∨
    (r.endianness = none ∧ ∃ k, err = DecodeError.endiannessUnresolved k) := by
  unfold Header.readScalars at H
  rcases M.bind_eq_error _ _ _ _ _ H with He | ⟨x1, r1, h1, H⟩
  · rcases Reader.word_eq_error _ _ _ _ He with h | ⟨h, hn⟩
    · exact Or.inl h
    · exact Or.inr ⟨hn, _, h⟩
  have p1 := (Reader.word_eq_ok _ _ _ _ h1).2
  rcases M.bind_eq_error _ _ _ _ _ H with He | ⟨x2, r2, h2, H⟩
  · rcases Reader.word_eq_error _ _ _ _ He with h | ⟨h, hn⟩
    · exact Or.inl h
    · exact Or.inr ⟨by rw [← p1, hn], _, h⟩
  have p2 := (Reader.word_eq_ok _ _ _ _ h2).2
  rcases M.bind_eq_error _ _ _ _ _ H with He | ⟨x3, r3, h3, H⟩
  · rcases Reader.word_eq_error _ _ _ _ He with h | ⟨h, hn⟩
    · exact Or.inl h
    · exact Or.inr ⟨by rw [← p1, ← p2, hn], _, h⟩
  have p3 := (Reader.word_eq_ok _ _ _ _ h3).2
  rcases M.bind_eq_error _ _ _ _ _ H with He | ⟨x4, r4, h4, H⟩
  · rcases Reader.word_eq_error _ _ _ _ He with h | ⟨h, hn⟩
    · exact Or.inl h
    · exact Or.inr ⟨by rw [← p1, ← p2, ← p3, hn], _, h⟩
  have p4 := (Reader.word_eq_ok _ _ _ _ h4).2
  rcases M.bind_eq_error _ _ _ _ _ H with He | ⟨x5, r5, h5, H⟩
  · rcases Reader.word_eq_error _ _ _ _ He with h | ⟨h, hn⟩
    · exact Or.inl h
    · exact Or.inr ⟨by rw [← p1, ← p2, ← p3, ← p4, hn], _, h⟩
  have p5 := (Reader.word_eq_ok _ _ _ _ h5).2
  rcases M.bind_eq_error _ _ _ _ _ H with He | ⟨x6, r6, h6, H⟩
  · rcases Reader.word_eq_error _ _ _ _ He with h | ⟨h, hn⟩
    · exact Or.inl h
    · exact Or.inr ⟨by rw [← p1, ← p2, ← p3, ← p4, ← p5, hn], _, h⟩
  have p6 := (Reader.word_eq_ok _ _ _ _ h6).2
  rcases M.bind_eq_error _ _ _ _ _ H with He | ⟨x7, r7, h7, H⟩
  · rcases Reader.word_eq_error _ _ _ _ He with h | ⟨h, hn⟩
    · exact Or.inl h
    · exact Or.inr ⟨by rw [← p1, ← p2, ← p3, ← p4, ← p5, ← p6, hn], _, h⟩
  exact absurd H (fun H => M.pure_eq_error _ _ _ _ H)

/-- Every failure of the address stage is a truncation or a
conditional unresolved-endianness report. -/
theorem Header.readAddrs_error (ws : WordSize) (e : Endianness) (a : Abi)
    (av : Nat) (t : Type_) (m v : Nat) (r r' : Reader) (err : DecodeError)
    (H : Header.readAddrs ws e a av t m v r = (Except.error err, r')) :
    err = DecodeError.truncated ∨
    (r.endianness = none ∧ ∃ k, err = DecodeError.endiannessUnresolved k) := by
  cases ws <;>
  · unfold Header.readAddrs at H
    rcases M.bind_eq_error _ _ _ _ _ H with He | ⟨x1, r1, h1, H⟩
    · rcases Reader.word_eq_error _ _ _ _ He with h | ⟨h, hn⟩
      · exact Or.inl h
      · exact Or.inr ⟨hn, _, h⟩
    have p1 := (Reader.word_eq_ok _ _ _ _ h1).2
    rcases M.bind_eq_error _ _ _ _ _ H with He | ⟨x2, r2, h2, H⟩
    · rcases Reader.word_eq_error _ _ _ _ He with h | ⟨h, hn⟩
      · exact Or.inl h
      · exact Or.inr ⟨by rw [← p1, hn], _, h⟩
    have p2 := (Reader.word_eq_ok _ _ _ _ h2).2
    rcases M.bind_eq_error _ _ _ _ _ H with He | ⟨x3, r3, h3, H⟩
    · rcases Reader.word_eq_error _ _ _ _ He with h | ⟨h, hn⟩
      · exact Or.inl h
      · exact Or.inr ⟨by rw [← p1, ← p2, hn], _, h⟩
    have p3 := (Reader.word_eq_ok _ _ _ _ h3).2
    rcases Header.readScalars_error _ _ _ _ _ _ _ _ _ _ _ _ _ H with h | ⟨hn, hk⟩
    · exact Or.inl h
    · exact Or.inr ⟨by rw [← p1, ← p2, ← p3, hn], hk⟩

/-- Every failure of the machine/version stage is a truncation or a
conditional unresolved-endianness report. -/
theorem Header.readAfterType_error (ws : WordSize) (e : Endianness) (a : Abi)
    (av : Nat) (t : Type_) (r r' : Reader) (err : DecodeError)
    (H : Header.readAfterType ws e a av t r = (Except.error err, r')) :
    err = DecodeError.truncated ∨
    (r.endianness = none ∧ ∃ k, err = DecodeError.endiannessUnresolved k) := by
  unfold Header.readAfterType at H
  rcases M.bind_eq_error _ _ _ _ _ H with He | ⟨x1, r1, h1, H⟩
  · rcases Reader.word_eq_error _ _ _ _ He with h | ⟨h, hn⟩
    · exact Or.inl h
    · exact Or.inr ⟨hn, _, h⟩
  have p1 := (Reader.word_eq_ok _ _ _ _ h1).2
  rcases M.bind_eq_error _ _ _ _ _ H with He | ⟨x2, r2, h2, H⟩
  · rcases Reader.word_eq_error _ _ _ _ He with h | ⟨h, hn⟩
    · exact Or.inl h
    · exact Or.inr ⟨by rw [← p1, hn], _, h⟩
  have p2 := (Reader.word_eq_ok _ _ _ _ h2).2
  rcases Header.readAddrs_error _ _ _ _ _ _ _ _ _ _ H with h | ⟨hn, hk⟩
  · exact Or.inl h
  · exact Or.inr ⟨by rw [← p1, ← p2, hn], hk⟩

/-- Every failure of the object-type stage is a truncation, a
conditional unresolved-endianness report, or an invalid object type. -/
theorem Header.readMulti_error (ws : WordSize) (e : Endianness) (a : Abi)
    (av : Nat) (r r' : Reader) (err : DecodeError)
    (H : Header.readMulti ws e a av r = (Except.error err, r')) :
    err = DecodeError.truncated ∨
    (r.endianness = none ∧ ∃ k, err = DecodeError.endiannessUnresolved k) ∨
    (∃ tv, err = DecodeError.invalidType tv) := by
  unfold Header.readMulti at H
  rcases M.bind_eq_error _ _ _ _ _ H with He | ⟨tv, r1, h1, H⟩
  · rcases Reader.word_eq_error _ _ _ _ He with h | ⟨h, hn⟩
    · exact Or.inl h
    · exact Or.inr (Or.inl ⟨hn, _, h⟩)
  have p1 := (Reader.word_eq_ok _ _ _ _ h1).2
  rcases htv : typeOfU16 tv with - | t <;> rw [htv] at H
  · exact Or.inr (Or.inr ⟨tv, M.fail_eq_error _ _ _ _ H⟩)
  · rcases Header.readAfterType_error _ _ _ _ _ _ _ _ H with h | ⟨hn, hk⟩
    · exact Or.inl h
    · exact Or.inr (Or.inl ⟨by rw [← p1, hn], hk⟩)

/-- Every failure of the ABI-version/padding stage. -/
theorem Header.readAfterAbi_error (ws : WordSize) (e : Endianness) (a : Abi)
    (r r' : Reader) (err : DecodeError)
    (H : Header.readAfterAbi ws e a r = (Except.error err, r')) :
    err = DecodeError.truncated ∨
    (r.endianness = none ∧ ∃ k, err = DecodeError.endiannessUnresolved k) ∨
    (∃ tv, err = DecodeError.invalidType tv) := by
  unfold Header.readAfterAbi at H
  rcases M.bind_eq_error _ _ _ _ _ H with He | ⟨av2, r1, h1, H⟩
  · exact Or.inl (Reader.byte_eq_error _ _ _ He)
  have p1 := (Reader.byte_eq_ok _ _ _ h1).2
  rcases M.bind_eq_error _ _ _ _ _ H with He | ⟨pad, r2, h2, H⟩
  · exact Or.inl (Reader.bytes_eq_error _ _ _ _ He)
  have p2 := (Reader.bytes_eq_ok _ _ _ _ h2).2
  rcases Header.readMulti_error _ _ _ _ _ _ _ H with h | ⟨hn, hk⟩ | h
  · exact Or.inl h
  · exact Or.inr (Or.inl ⟨by rw [← p1, ← p2, hn], hk⟩)
  · exact Or.inr (Or.inr h)

/-- Every failure of the identifier-version/ABI stage. -/
theorem Header.readIdentTail_error (ws : WordSize) (e : Endianness)
    (r r' : Reader) (err : DecodeError)
    (H : Header.readIdentTail ws e r = (Except.error err, r')) :
    err = DecodeError.truncated ∨
    (r.endianness = none ∧ ∃ k, err = DecodeError.endiannessUnresolved k) ∨
    (∃ tv, err = DecodeError.invalidType tv) ∨
    (∃ iv, err = DecodeError.invalidIdentVersion iv) ∨
    (∃ ab, err = DecodeError.invalidAbi ab) := by
  unfold Header.readIdentTail at H
  rcases M.bind_eq_error _ _ _ _ _ H with He | ⟨iv, r1, h1, H⟩
  · exact Or.inl (Reader.byte_eq_error _ _ _ He)
  have p1 := (Reader.byte_eq_ok _ _ _ h1).2
  by_cases hiv : iv = 1
  · rw [if_pos hiv] at H
    rcases M.bind_eq_error _ _ _ _ _ H with He | ⟨ab, r2, h2, H⟩
    · exact Or.inl (Reader.byte_eq_error _ _ _ He)
    have p2 := (Reader.byte_eq_ok _ _ _ h2).2
    rcases hab : abiOfByte ab with - | a <;> rw [hab] at H
    · exact Or.inr (Or.inr (Or.inr (Or.inr ⟨ab, M.fail_eq_error _ _ _ _ H⟩)))
    · rcases Header.readAfterAbi_error _ _ _ _ _ _ H with h | ⟨hn, hk⟩ | h
      · exact Or.inl h
      · exact Or.inr (Or.inl ⟨by rw [← p1, ← p2, hn], hk⟩)
      · exact Or.inr (Or.inr (Or.inl h))
  · rw [if_neg hiv] at H
    exact Or.inr (Or.inr (Or.inr (Or.inl ⟨iv, M.fail_eq_error _ _ _ _ H⟩)))

/-- Every failure of the endianness stage onward is a data error: in
particular the unresolved-endianness report never occurs, because the
endianness is registered before any multi-byte read. -/
theorem Header.readAfterWordSize_error (ws : WordSize)
    (r r' : Reader) (err : DecodeError)
    (H : Header.readAfterWordSize ws r = (Except.error err, r')) :
    err = DecodeError.truncated ∨
    (∃ eb, err = DecodeError.invalidEndianness eb) ∨
    (∃ tv, err = DecodeError.invalidType tv) ∨
    (∃ iv, err = DecodeError.invalidIdentVersion iv) ∨
    (∃ ab, err = DecodeError.invalidAbi ab) := by
  unfold Header.readAfterWordSize at H
  rcases M.bind_eq_error _ _ _ _ _ H with He | ⟨eb, r1, h1, H⟩
  · exact Or.inl (Reader.byte_eq_error _ _ _ He)
  rcases heb : endiannessOfByte eb with - | e <;> rw [heb] at H
  · exact Or.inr (Or.inl ⟨eb, M.fail_eq_error _ _ _ _ H⟩)
  · rcases M.bind_eq_error _ _ _ _ _ H with He | ⟨u, r2, h2, H⟩
    · rw [Reader.setEndianness_eq] at He
      simp at He
    · rw [Reader.setEndianness_eq] at h2
      obtain ⟨-, h2⟩ := Prod.mk.injEq .. ▸ h2
      rcases Header.readIdentTail_error _ _ _ _ _ H with h | ⟨hn, -⟩ | h | h | h
      · exact Or.inl h
      · rw [← h2] at hn
        simp at hn
      · exact Or.inr (Or.inr (Or.inl h))
      · exact Or.inr (Or.inr (Or.inr (Or.inl h)))
      · exact Or.inr (Or.inr (Or.inr (Or.inr h)))

/-- Every failure of `Header.read` is one of the seven data errors:
bad magic, invalid word size, invalid endianness, invalid identifier
version, invalid ABI, invalid object type, or truncation. The
unresolved-endianness report is never among them. -/
theorem Header.read_error (r r' : Reader) (err : DecodeError)
    (H : Header.read r = (Except.error err, r')) :
    err = DecodeError.truncated ∨
    err = DecodeError.notAnElfFile ∨
    (∃ wsb, err = DecodeError.invalidWordSize wsb) ∨
    (∃ eb, err = DecodeError.invalidEndianness eb) ∨
    (∃ tv, err = DecodeError.invalidType tv) ∨
    (∃ iv, err = DecodeError.invalidIdentVersion iv) ∨
    (∃ ab, err = DecodeError.invalidAbi ab) := by
  unfold Header.read at H
  rcases M.bind_eq_error _ _ _ _ _ H with He | ⟨mg, r1, h1, H⟩
  · exact Or.inl (Reader.bytes_eq_error _ _ _ _ He)
  by_cases hmg : mg = [0x7F, 0x45, 0x4C, 0x46]
  · rw [if_pos hmg] at H
    rcases M.bind_eq_error _ _ _ _ _ H with He | ⟨wsb, r2, h2, H⟩
    · exact Or.inl (Reader.byte_eq_error _ _ _ He)
    rcases hws : wordSizeOfByte wsb with - | ws <;> rw [hws] at H
    · exact Or.inr (Or.inr (Or.inl ⟨wsb, M.fail_eq_error _ _ _ _ H⟩))
    · rcases Header.readAfterWordSize_error _ _ _ _ H with h | h | h | h | h
      · exact Or.inl h
      · exact Or.inr (Or.inr (Or.inr (Or.inl h)))
      · exact Or.inr (Or.inr (Or.inr (Or.inr (Or.inl h))))
      · exact Or.inr (Or.inr (Or.inr (Or.inr (Or.inr (Or.inl h)))))
      · exact Or.inr (Or.inr (Or.inr (Or.inr (Or.inr (Or.inr h)))))
  · rw [if_neg hmg] at H
    exact Or.inr (Or.inl (M.fail_eq_error _ _ _ _ H))

/-! ### The identifier tail never changes the registered endianness -/

theorem M.bind_endianness {α β : Type} (m : M α) (f : α → M β) (r : Reader)
    (hm : ((m r).2).endianness = r.endianness)
    (hf : ∀ a rm, ((f a rm).2).endianness = rm.endianness) :
    ((M.bind m f r).2).endianness = r.endianness := by
  unfold M.bind
  rcases hmr : m r with ⟨res, rm⟩
  rw [hmr] at hm
  cases res with
  | ok a =>
    dsimp only
    rw [hf a rm]
    exact hm
  | error e =>
    exact hm

theorem Reader.word_endianness (k : Nat) (r : Reader) :
    ((Reader.word k r).2).endianness = r.endianness := by
  rcases Reader.word_spec k r with ⟨-, hw⟩ | hw | ⟨e, he, -, hw⟩
  · rw [hw]
  · rw [hw]
  · rw [hw]
    simp [he]

theorem Reader.byte_endianness (r : Reader) :
    ((Reader.byte r).2).endianness = r.endianness := by
  rcases Reader.byte_spec r with ⟨-, hw⟩ | ⟨b, rest, -, hw⟩ <;> rw [hw]

theorem Reader.bytes_endianness (k : Nat) (r : Reader) :
    ((Reader.bytes k r).2).endianness = r.endianness := by
  rcases Reader.bytes_spec k r with ⟨-, hw⟩ | ⟨-, hw⟩ <;> rw [hw]

theorem Header.readScalars_endianness (ws : WordSize) (e : Endianness) (a : Abi)
    (av : Nat) (t : Type_) (m v : Nat) (a1 a2 a3 : Address) (r : Reader) :
    ((Header.readScalars ws e a av t m v a1 a2 a3 r).2).endianness =
      r.endianness := by
  unfold Header.readScalars
  refine M.bind_endianness _ _ _ (Reader.word_endianness 4 r) fun x1 r1 => ?_
  refine M.bind_endianness _ _ _ (Reader.word_endianness 2 r1) fun x2 r2 => ?_
  refine M.bind_endianness _ _ _ (Reader.word_endianness 2 r2) fun x3 r3 => ?_
  refine M.bind_endianness _ _ _ (Reader.word_endianness 2 r3) fun x4 r4 => ?_
  refine M.bind_endianness _ _ _ (Reader.word_endianness 2 r4) fun x5 r5 => ?_
  refine M.bind_endianness _ _ _ (Reader.word_endianness 2 r5) fun x6 r6 => ?_
  refine M.bind_endianness _ _ _ (Reader.word_endianness 2 r6) fun x7 r7 => ?_
  rfl

theorem Header.readAddrs_endianness (ws : WordSize) (e : Endianness) (a : Abi)
    (av : Nat) (t : Type_) (m v : Nat) (r : Reader) :
    ((Header.readAddrs ws e a av t m v r).2).endianness = r.endianness := by
  cases ws <;>
  · unfold Header.readAddrs
    refine M.bind_endianness _ _ _ (Reader.word_endianness _ r) fun x1 r1 => ?_
    refine M.bind_endianness _ _ _ (Reader.word_endianness _ r1) fun x2 r2 => ?_
    refine M.bind_endianness _ _ _ (Reader.word_endianness _ r2) fun x3 r3 => ?_
    exact Header.readScalars_endianness _ _ _ _ _ _ _ _ _ _ r3

theorem Header.readAfterType_endianness (ws : WordSize) (e : Endianness)
    (a : Abi) (av : Nat) (t : Type_) (r : Reader) :
    ((Header.readAfterType ws e a av t r).2).endianness = r.endianness := by
  unfold Header.readAfterType
  refine M.bind_endianness _ _ _ (Reader.word_endianness 2 r) fun x1 r1 => ?_
  refine M.bind_endianness _ _ _ (Reader.word_endianness 4 r1) fun x2 r2 => ?_
  exact Header.readAddrs_endianness _ _ _ _ _ _ _ r2

theorem Header.readMulti_endianness (ws : WordSize) (e : Endianness) (a : Abi)
    (av : Nat) (r : Reader) :
    ((Header.readMulti ws e a av r).2).endianness = r.endianness := by
  unfold Header.readMulti
  refine M.bind_endianness _ _ _ (Reader.word_endianness 2 r) fun tv rm => ?_
  rcases htv : typeOfU16 tv with - | t
  · rfl
  · exact Header.readAfterType_endianness _ _ _ _ _ rm

theorem Header.readAfterAbi_endianness (ws : WordSize) (e : Endianness)
    (a : Abi) (r : Reader) :
    ((Header.readAfterAbi ws e a r).2).endianness = r.endianness := by
  unfold Header.readAfterAbi
  refine M.bind_endianness _ _ _ (Reader.byte_endianness r) fun av r1 => ?_
  refine M.bind_endianness _ _ _ (Reader.bytes_endianness 7 r1) fun pad r2 => ?_
  exact Header.readMulti_endianness _ _ _ _ r2

theorem Header.readIdentTail_endianness (ws : WordSize) (e : Endianness)
    (r : Reader) :
    ((Header.readIdentTail ws e r).2).endianness = r.endianness := by
  unfold Header.readIdentTail
  refine M.bind_endianness _ _ _ (Reader.byte_endianness r) fun iv r1 => ?_
  by_cases hiv : iv = 1
  · rw [if_pos hiv]
    refine M.bind_endianness _ _ _ (Reader.byte_endianness r1) fun ab r2 => ?_
    rcases hab : abiOfByte ab with - | a2
    · rfl
    · exact Header.readAfterAbi_endianness _ _ _ r2
  · rw [if_neg hiv]
    rfl

/-- The endianness stage onward never reports an invalid word size:
that error is issued only before this stage is entered. -/
theorem Header.readAfterWordSize_no_invalid_ws (ws : WordSize) (r : Reader)
    (x : Nat) :
    (Header.readAfterWordSize ws r).1 ≠
      Except.error (DecodeError.invalidWordSize x) := by
  rcases hres : Header.readAfterWordSize ws r with ⟨res, r'⟩
  cases res with
  | ok h => simp
  | error err =>
    rcases Header.readAfterWordSize_error ws r r' err hres with
      h | ⟨eb, h⟩ | ⟨tv, h⟩ | ⟨iv, h⟩ | ⟨ab, h⟩ <;> subst h <;> simp

/-- Every ABI byte that is 5 or above `0x12` is unmapped. -/
theorem abiOfByte_eq_none (ab : Nat) (h : ab = 5 ∨ 0x12 < ab) :
    abiOfByte ab = none := by
  rcases h with rfl | h
  · rfl
  · unfold abiOfByte
    repeat rw [if_neg (by omega)]

/-! ### The claims -/

/-- Claim C2: for every input of at least four bytes whose first four
bytes differ from `7F 45 4C 46`, the decode fails with the
not-an-ELF-file outcome, having consumed exactly the four bytes already
read (the rest of the input is still unread in the final reader). -/
theorem bad_magic_rejected (input : List Nat) (h4 : 4 ≤ input.length)
    (hm : input.take 4 ≠ [0x7F, 0x45, 0x4C, 0x46]) :
    Header.read (Reader.new input) =
      (Except.error DecodeError.notAnElfFile,
       { input := input.drop 4, consumed := 4, endianness := none }) :=
  Header.read_fail_magic input h4 hm

/-- Claim C2 witness. -/
theorem bad_magic_rejected_witness :
    Header.read (Reader.new [1, 2, 3, 4, 5]) =
      (Except.error DecodeError.notAnElfFile,
       { input := [5], consumed := 4, endianness := none }) := by
  have := bad_magic_rejected [1, 2, 3, 4, 5] (by norm_num) (by decide)
  simpa using this

/-- Claim C4: every header record returned by the decode has all three
address fields tagged with a width equal to the record's word size;
no record mixes a 32-bit address with a 64-bit word size or vice
versa. -/
theorem address_width_matches_word_size (r : Reader) (h : Header) (r' : Reader)
    (H : Header.read r = (Except.ok h, r')) :
    h.entry_point.width = h.word_size ∧
    h.program_header_address.width = h.word_size ∧
    h.section_header_address.width = h.word_size := by
  obtain ⟨w1, w2, w3, -, -⟩ := Header.read_ok r h r' H
  exact ⟨w1, w2, w3⟩

/-- Claim C4 witness: a concrete 32-bit little-endian header. -/
theorem address_width_matches_word_size_witness :
    ({ word_size := WordSize.Bits32
       endianness := Endianness.Little
       abi := Abi.Linux
       abi_version := 9
       type_ := Type_.Executable
       machine := 62
       version := 67305985
       entry_point := Address.Bits32 1076895760
       program_header_address := Address.Bits32 1093738769
       section_header_address := Address.Bits32 1110581778
       flags := 134678021
       header_size := 308
       program_header_entry_size := 544
       program_header_entry_count := 1027
       section_header_entry_size := 1320
       section_header_entry_count := 1798
       section_header_name_entry_idx := 2312 } : Header).entry_point.width =
        WordSize.Bits32 :=
  (address_width_matches_word_size
    (Reader.new [0x7F, 0x45, 0x4C, 0x46, 1, 1, 1, 0x03, 9,
      11, 12, 13, 14, 15, 16, 17,
      2, 0, 62, 0, 1, 2, 3, 4,
      0x10, 0x20, 0x30, 0x40, 0x11, 0x21, 0x31, 0x41, 0x12, 0x22, 0x32, 0x42,
      5, 6, 7, 8, 52, 1, 32, 2, 3, 4, 40, 5, 6, 7, 8, 9])
    _ { input := [], consumed := 52, endianness := some Endianness.Little }
    (by rfl)).1

/-- Claim C7: no execution of the public decode entry point ever ends
with the unresolved-endianness report of the multi-byte reads: the
decode registers the endianness before issuing any multi-byte numeric
read, so this invariant-violation error is unreachable through
`Header.read`, whatever the input and initial reader state. -/
theorem unresolved_endianness_unreachable (r : Reader) (k : Nat) :
    (Header.read r).1 ≠ Except.error (DecodeError.endiannessUnresolved k) := by
  rcases hres : Header.read r with ⟨res, r'⟩
  cases res with
  | ok h => simp
  | error err =>
    rcases Header.read_error r r' err hres with
      h | h | ⟨a, h⟩ | ⟨a, h⟩ | ⟨a, h⟩ | ⟨a, h⟩ | ⟨a, h⟩ <;> subst h <;> simp

/-- Claim C7 witness. -/
theorem unresolved_endianness_unreachable_witness :
    (Header.read (Reader.new [])).1 ≠
      Except.error (DecodeError.endiannessUnresolved 16) :=
  unresolved_endianness_unreachable (Reader.new []) 16

/-- Claim C8: a stream of exactly three bytes fails with the
truncation outcome (the decoder is a total function, so no panic or
undefined result is possible); in general every read of `n` bytes
fails with `truncated` when fewer than `n` bytes remain. -/
theorem truncated_stream_rejected :
    (∀ b0 b1 b2 : Nat, Header.read (Reader.new [b0, b1, b2]) =
        (Except.error DecodeError.truncated, Reader.new [b0, b1, b2])) ∧
    (∀ (n : Nat) (r : Reader), r.input.length < n →
        Reader.bytes n r = (Except.error DecodeError.truncated, r)) := by
  constructor
  · intro b0 b1 b2
    rfl
  · intro n r hlt
    rcases Reader.bytes_spec n r with ⟨-, hb⟩ | ⟨hle, -⟩
    · exact hb
    · omega

/-- Claim C8 witness. -/
theorem truncated_stream_rejected_witness :
    Header.read (Reader.new [9, 9, 9]) =
        (Except.error DecodeError.truncated, Reader.new [9, 9, 9]) ∧
    Reader.bytes 2 (Reader.new [7]) =
        (Except.error DecodeError.truncated, Reader.new [7]) :=
  ⟨truncated_stream_rejected.1 9 9 9,
   truncated_stream_rejected.2 2 (Reader.new [7]) (by norm_num [Reader.new])⟩

/-- Claim C9: after a correct magic, a word-size byte of 1 or 2 lets
the decode proceed past that field (it can never fail with the
invalid-word-size outcome any more), while any other byte value makes
it fail with `invalidWordSize` carrying exactly that value, with the
endianness byte not yet consumed (five bytes consumed, the rest of the
input untouched). -/
theorem word_size_validation (w : Nat) (rest : List Nat) :
    ((w = 1 ∨ w = 2) → ∀ x,
      (Header.read (Reader.new ([0x7F, 0x45, 0x4C, 0x46, w] ++ rest))).1 ≠
        Except.error (DecodeError.invalidWordSize x)) ∧
    (w ≠ 1 → w ≠ 2 →
      Header.read (Reader.new ([0x7F, 0x45, 0x4C, 0x46, w] ++ rest)) =
        (Except.error (DecodeError.invalidWordSize w),
         { input := rest, consumed := 5, endianness := none })) := by
  constructor
  · rintro (rfl | rfl) x
    · rw [Header.read_run_ws 1 WordSize.Bits32 rest rfl]
      exact Header.readAfterWordSize_no_invalid_ws _ _ x
    · rw [Header.read_run_ws 2 WordSize.Bits64 rest rfl]
      exact Header.readAfterWordSize_no_invalid_ws _ _ x
  · intro h1 h2
    exact Header.read_fail_ws w rest (by simp [wordSizeOfByte, h1, h2])

/-- Claim C9 witness: word-size byte 3 fails naming the value 3. -/
theorem word_size_validation_witness :
    Header.read (Reader.new ([0x7F, 0x45, 0x4C, 0x46, 3] ++ [1, 1])) =
      (Except.error (DecodeError.invalidWordSize 3),
       { input := [1, 1], consumed := 5, endianness := none }) :=
  (word_size_validation 3 [1, 1]).2 (by norm_num) (by norm_num)

/-- Claim C10: every successful decode consumes exactly 52 bytes from
the source when the record's word size is 32-bit and exactly 64 bytes
when it is 64-bit. -/
theorem decode_consumes_exact_header_size (r : Reader) (h : Header)
    (r' : Reader) (H : Header.read r = (Except.ok h, r')) :
    (h.word_size = WordSize.Bits32 → r'.consumed = r.consumed + 52) ∧
    (h.word_size = WordSize.Bits64 → r'.consumed = r.consumed + 64) := by
  obtain ⟨-, -, -, hc, -⟩ := Header.read_ok r h r' H
  constructor <;> intro hws <;> rw [hws] at hc <;>
    simpa [WordSize.addrSize] using hc

/-- Claim C10 witness: a concrete 64-bit big-endian header of 64
bytes is consumed whole. -/
theorem decode_consumes_exact_header_size_witness :
    ({ input := [], consumed := 64,
       endianness := some Endianness.Big } : Reader).consumed =
      (Reader.new [0x7F, 0x45, 0x4C, 0x46, 2, 2, 1, 0x09, 3,
        31, 32, 33, 34, 35, 36, 37,
        0xFE, 0xFF, 0, 62, 0, 0, 0, 1,
        1, 2, 3, 4, 5, 6, 7, 8,
        11, 12, 13, 14, 15, 16, 17, 18,
        21, 22, 23, 24, 25, 26, 27, 28,
        9, 8, 7, 6, 0, 64, 0, 56, 0, 13, 0, 64, 0, 31, 0, 30]).consumed + 64 :=
  (decode_consumes_exact_header_size
    (Reader.new [0x7F, 0x45, 0x4C, 0x46, 2, 2, 1, 0x09, 3,
      31, 32, 33, 34, 35, 36, 37,
      0xFE, 0xFF, 0, 62, 0, 0, 0, 1,
      1, 2, 3, 4, 5, 6, 7, 8,
      11, 12, 13, 14, 15, 16, 17, 18,
      21, 22, 23, 24, 25, 26, 27, 28,
      9, 8, 7, 6, 0, 64, 0, 56, 0, 13, 0, 64, 0, 31, 0, 30])
    { word_size := WordSize.Bits64
      endianness := Endianness.Big
      abi := Abi.FreeBSD
      abi_version := 3
      type_ := Type_.Other 65279
      machine := 62
      version := 1
      entry_point := Address.Bits64 72623859790382856
      program_header_address := Address.Bits64 796025588171149586
      section_header_address := Address.Bits64 1519427316551916316
      flags := 151521030
      header_size := 64
      program_header_entry_size := 56
      program_header_entry_count := 13
      section_header_entry_size := 64
      section_header_entry_count := 31
      section_header_name_entry_idx := 30 }
    { input := [], consumed := 64, endianness := some Endianness.Big }
    (by rfl)).2 rfl

set_option maxRecDepth 4000 in
/-- Claim C1, counterexample to the stated count: the decoder's ABI
table maps exactly 18 byte values, not 19 — the range `0x00`–`0x12`
holds 19 values but `0x05` is a gap, so only 18 are documented. -/
theorem abi_documented_values_are_18 :
    (List.range 256).countP (fun b => (abiOfByte b).isSome) = 18 ∧
    ¬ (List.range 256).countP (fun b => (abiOfByte b).isSome) = 19 := by
  constructor
  · decide
  · decide

/-- Claim C1 (amended: 18 documented values, not 19): every byte in
`0x00`–`0x12` other than the gap `0x05` is mapped to an ABI tag, any
record decoded from an input carrying a mapped ABI byte holds exactly
the tag of that byte, and an ABI byte equal to `0x05` or above `0x12`
makes the decode fail with `invalidAbi` naming that byte. -/
theorem abi_byte_mapping (wsb enb ab : Nat) (ws : WordSize) (e : Endianness)
    (hws : wordSizeOfByte wsb = some ws) (hen : endiannessOfByte enb = some e)
    (hab256 : ab < 256) (rest : List Nat) :
    (ab ≤ 0x12 → ab ≠ 0x05 → (abiOfByte ab).isSome) ∧
    (∀ a, abiOfByte ab = some a →
      ∀ h r',
        Header.read
            (Reader.new ([0x7F, 0x45, 0x4C, 0x46, wsb, enb, 1, ab] ++ rest)) =
          (Except.ok h, r') → h.abi = a) ∧
    (ab = 0x05 ∨ 0x12 < ab →
      Header.read
          (Reader.new ([0x7F, 0x45, 0x4C, 0x46, wsb, enb, 1, ab] ++ rest)) =
        (Except.error (DecodeError.invalidAbi ab),
         { input := rest, consumed := 8, endianness := some e })) := by
  refine ⟨?_, ?_, ?_⟩
  · intro h1 h2
    interval_cases ab <;> simp_all [abiOfByte]
  · intro a ha h r' H
    have hl : ([0x7F, 0x45, 0x4C, 0x46, wsb, enb, 1, ab] ++ rest) =
        ([0x7F, 0x45, 0x4C, 0x46, wsb, enb] ++ (1 :: ab :: rest)) := rfl
    rw [hl, Header.read_run wsb enb ws e _ hws hen,
      Header.readIdentTail_run ws e a ab ha rest 6] at H
    exact (Header.readAfterAbi_ok ws e a _ h r' H).2.2.1
  · intro hbad
    have hnone := abiOfByte_eq_none ab hbad
    have hl : ([0x7F, 0x45, 0x4C, 0x46, wsb, enb, 1, ab] ++ rest) =
        ([0x7F, 0x45, 0x4C, 0x46, wsb, enb] ++ (1 :: ab :: rest)) := rfl
    rw [hl, Header.read_run wsb enb ws e _ hws hen,
      Header.readIdentTail_fail_abi ws e ab hnone rest 6]

/-- Claim C1 witness: ABI byte `0x05` is rejected naming the value 5. -/
theorem abi_byte_mapping_witness :
    Header.read (Reader.new ([0x7F, 0x45, 0x4C, 0x46, 1, 1, 1, 5] ++ [])) =
      (Except.error (DecodeError.invalidAbi 5),
       { input := [], consumed := 8, endianness := some Endianness.Little }) :=
  (abi_byte_mapping 1 1 5 WordSize.Bits32 Endianness.Little rfl rfl
    (by norm_num) []).2.2 (Or.inl rfl)

/-- Claim C3: after a correct magic and a valid word-size byte, an
endianness byte of 1 resolves to little and 2 to big, registered on the
source at once (the decode continues as the identifier tail over a
reader carrying that endianness, six bytes consumed); any other byte
fails with `invalidEndianness` naming it, before any multi-byte field
is read and with no endianness ever registered. Moreover every
successful multi-byte read interprets its bytes in exactly the
endianness registered on the reader and preserves it, and the whole
remaining decode never alters the registered endianness. -/
theorem endianness_resolution (ws : WordSize) (enb : Nat) (rest : List Nat) :
    (enb = 1 →
      Header.read
          (Reader.new ([0x7F, 0x45, 0x4C, 0x46, wordSizeByte ws, enb] ++ rest)) =
        Header.readIdentTail ws Endianness.Little
          { input := rest, consumed := 6,
            endianness := some Endianness.Little }) ∧
    (enb = 2 →
      Header.read
          (Reader.new ([0x7F, 0x45, 0x4C, 0x46, wordSizeByte ws, enb] ++ rest)) =
        Header.readIdentTail ws Endianness.Big
          { input := rest, consumed := 6,
            endianness := some Endianness.Big }) ∧
    (enb ≠ 1 → enb ≠ 2 →
      Header.read
          (Reader.new ([0x7F, 0x45, 0x4C, 0x46, wordSizeByte ws, enb] ++ rest)) =
        (Except.error (DecodeError.invalidEndianness enb),
         { input := rest, consumed := 6, endianness := none })) ∧
    (∀ (e : Endianness) (k : Nat) (r : Reader) (n : Nat) (r' : Reader),
      r.endianness = some e → Reader.word k r = (Except.ok n, r') →
        n = e.interp (r.input.take k) ∧ r'.endianness = some e) ∧
    (∀ (ws' : WordSize) (e : Endianness) (r : Reader),
      ((Header.readIdentTail ws' e r).2).endianness = r.endianness) := by
  refine ⟨?_, ?_, ?_, ?_, ?_⟩
  · rintro rfl
    exact Header.read_run (wordSizeByte ws) 1 ws Endianness.Little rest
      (wordSizeOfByte_wordSizeByte ws) rfl
  · rintro rfl
    exact Header.read_run (wordSizeByte ws) 2 ws Endianness.Big rest
      (wordSizeOfByte_wordSizeByte ws) rfl
  · intro h1 h2
    have hl : ([0x7F, 0x45, 0x4C, 0x46, wordSizeByte ws, enb] ++ rest) =
        ([0x7F, 0x45, 0x4C, 0x46, wordSizeByte ws] ++ (enb :: rest)) := rfl
    rw [hl, Header.read_run_ws (wordSizeByte ws) ws (enb :: rest)
        (wordSizeOfByte_wordSizeByte ws),
      Header.readAfterWordSize_fail ws enb
        (by simp [endiannessOfByte, h1, h2]) rest 5 none]
  · intro e k r n r' he H
    rcases Reader.word_spec k r with ⟨hn, hw⟩ | hw | ⟨e2, he2, -, hw⟩ <;>
      rw [hw] at H
    · rw [he] at hn
      cases hn
    · simp at H
    · rw [he] at he2
      obtain rfl := (Option.some.injEq .. ▸ he2).symm
      obtain ⟨h1, h2⟩ := Prod.mk.injEq .. ▸ H
      refine ⟨(Except.ok.injEq .. ▸ h1).symm, ?_⟩
      rw [← h2]
  · intro ws' e r
    exact Header.readIdentTail_endianness ws' e r

/-- Claim C3 witness: endianness byte 1 resolves to little and is
registered; byte 9 is rejected naming the value 9 with nothing
registered. -/
theorem endianness_resolution_witness :
    (Header.read
        (Reader.new ([0x7F, 0x45, 0x4C, 0x46, wordSizeByte WordSize.Bits64, 1] ++ [])) =
      Header.readIdentTail WordSize.Bits64 Endianness.Little
        { input := [], consumed := 6,
          endianness := some Endianness.Little }) ∧
    (Header.read
        (Reader.new ([0x7F, 0x45, 0x4C, 0x46, wordSizeByte WordSize.Bits64, 9] ++ [])) =
      (Except.error (DecodeError.invalidEndianness 9),
       { input := [], consumed := 6, endianness := none })) :=
  ⟨(endianness_resolution WordSize.Bits64 1 []).1 rfl,
   (endianness_resolution WordSize.Bits64 9 []).2.2.1 (by norm_num) (by norm_num)⟩

/-- Claim C5: the object-type table maps 0–4 to the five enumerated
types and exactly the four reserved codes to `Other` carrying the code
itself; a record decoded from an input whose object-type field holds a
mapped value carries exactly the mapped type, and an unmapped value
makes the decode fail with `invalidType` naming the decoded value. -/
theorem object_type_mapping (ws : WordSize) (e : Endianness) (v : Nat)
    (hv : v < 2 ^ 16) (rest : List Nat) :
    (typeOfU16 0 = some Type_.Unknown ∧ typeOfU16 1 = some Type_.Relocatable ∧
     typeOfU16 2 = some Type_.Executable ∧
     typeOfU16 3 = some Type_.SharedObject ∧ typeOfU16 4 = some Type_.Core ∧
     typeOfU16 0xFE00 = some (Type_.Other 0xFE00) ∧
     typeOfU16 0xFEFF = some (Type_.Other 0xFEFF) ∧
     typeOfU16 0xFF00 = some (Type_.Other 0xFF00) ∧
     typeOfU16 0xFFFF = some (Type_.Other 0xFFFF)) ∧
    (∀ u : Nat, (typeOfU16 u).isSome →
      u = 0 ∨ u = 1 ∨ u = 2 ∨ u = 3 ∨ u = 4 ∨
      u = 0xFE00 ∨ u = 0xFEFF ∨ u = 0xFF00 ∨ u = 0xFFFF) ∧
    (∀ t, typeOfU16 v = some t →
      ∀ h r',
        Header.read (Reader.new
            ([0x7F, 0x45, 0x4C, 0x46, wordSizeByte ws, endiannessByte e, 1, 0, 0] ++
              (List.replicate 7 0 ++ (e.toBytes 2 v ++ rest)))) =
          (Except.ok h, r') → h.type_ = t) ∧
    (typeOfU16 v = none →
      (Header.read (Reader.new
          ([0x7F, 0x45, 0x4C, 0x46, wordSizeByte ws, endiannessByte e, 1, 0, 0] ++
            (List.replicate 7 0 ++ (e.toBytes 2 v ++ rest))))).1 =
        Except.error (DecodeError.invalidType v)) := by
  have hi : e.interp (e.toBytes 2 v) = v :=
    interp_toBytes e 2 v (by norm_num at hv ⊢; exact hv)
  have hl : ([0x7F, 0x45, 0x4C, 0x46, wordSizeByte ws, endiannessByte e, 1, 0, 0] ++
      (List.replicate 7 0 ++ (e.toBytes 2 v ++ rest))) =
      ([0x7F, 0x45, 0x4C, 0x46, wordSizeByte ws, endiannessByte e] ++
        (1 :: 0 :: (0 :: (List.replicate 7 0 ++ (e.toBytes 2 v ++ rest))))) := rfl
  refine ⟨⟨rfl, rfl, rfl, rfl, rfl, rfl, rfl, rfl, rfl⟩, ?_, ?_, ?_⟩
  · intro u hu
    unfold typeOfU16 at hu
    split_ifs at hu with h0 h1 h2 h3 h4 h5 <;> tauto
  · intro t ht h r' H
    have ht' : typeOfU16 (e.interp (e.toBytes 2 v)) = some t := by
      rw [hi]; exact ht
    rw [hl, Header.read_run (wordSizeByte ws) (endiannessByte e) ws e _
        (wordSizeOfByte_wordSizeByte ws) (endiannessOfByte_endiannessByte e),
      Header.readIdentTail_run ws e Abi.SystemV 0 rfl _ 6,
      Header.readAfterAbi_run ws e Abi.SystemV 0 (List.replicate 7 0) _
        (by simp) (6 + 2),
      Header.readMulti_run ws e Abi.SystemV 0 t (e.toBytes 2 v) rest
        (toBytes_length e 2 v) ht' (6 + 2 + 8)] at H
    exact (Header.readAfterType_ok ws e Abi.SystemV 0 t _ h r' H).2.2.2.2.1
  · intro ht
    have ht' : typeOfU16 (e.interp (e.toBytes 2 v)) = none := by
      rw [hi]; exact ht
    rw [hl, Header.read_run (wordSizeByte ws) (endiannessByte e) ws e _
        (wordSizeOfByte_wordSizeByte ws) (endiannessOfByte_endiannessByte e),
      Header.readIdentTail_run ws e Abi.SystemV 0 rfl _ 6,
      Header.readAfterAbi_run ws e Abi.SystemV 0 (List.replicate 7 0) _
        (by simp) (6 + 2),
      Header.readMulti_fail ws e Abi.SystemV 0 (e.toBytes 2 v) rest
        (toBytes_length e 2 v) ht' (6 + 2 + 8)]
    simp [hi]

/-- Claim C5 witness: object-type value 5 (little-endian bytes
`05 00`) is rejected naming the value 5. -/
theorem object_type_mapping_witness :
    (Header.read (Reader.new
        ([0x7F, 0x45, 0x4C, 0x46, wordSizeByte WordSize.Bits32,
          endiannessByte Endianness.Little, 1, 0, 0] ++
          (List.replicate 7 0 ++ (Endianness.Little.toBytes 2 5 ++ []))))).1 =
      Except.error (DecodeError.invalidType 5) :=
  (object_type_mapping WordSize.Bits32 Endianness.Little 5 (by norm_num) []).2.2.2
    (by decide)

/-! ### The round trip -/

theorem interp_toBytes2 (e : Endianness) (n : Nat) (h : n < 2 ^ 16) :
    e.interp (e.toBytes 2 n) = n :=
  interp_toBytes e 2 n (by norm_num at h ⊢; exact h)

theorem interp_toBytes4 (e : Endianness) (n : Nat) (h : n < 2 ^ 32) :
    e.interp (e.toBytes 4 n) = n :=
  interp_toBytes e 4 n (by norm_num at h ⊢; exact h)

theorem interp_toBytes8 (e : Endianness) (n : Nat) (h : n < 2 ^ 64) :
    e.interp (e.toBytes 8 n) = n :=
  interp_toBytes e 8 n (by norm_num at h ⊢; exact h)

/-- The encoding regrouped to match the decode stages: six identifier
bytes, then the identifier tail, then the multi-byte fields. -/
theorem Header.encode_shape (hh : Header) :
    hh.encode =
      [0x7F, 0x45, 0x4C, 0x46, wordSizeByte hh.word_size,
        endiannessByte hh.endianness] ++
      (1 :: abiByte hh.abi :: hh.abi_version ::
        (List.replicate 7 0 ++
        (hh.endianness.toBytes 2 (typeCode hh.type_) ++
        (hh.endianness.toBytes 2 hh.machine ++
        (hh.endianness.toBytes 4 hh.version ++
        (Address.toBytes hh.endianness hh.entry_point ++
        (Address.toBytes hh.endianness hh.program_header_address ++
        (Address.toBytes hh.endianness hh.section_header_address ++
        (hh.endianness.toBytes 4 hh.flags ++
        (hh.endianness.toBytes 2 hh.header_size ++
        (hh.endianness.toBytes 2 hh.program_header_entry_size ++
        (hh.endianness.toBytes 2 hh.program_header_entry_count ++
        (hh.endianness.toBytes 2 hh.section_header_entry_size ++
        (hh.endianness.toBytes 2 hh.section_header_entry_count ++
        (hh.endianness.toBytes 2 hh.section_header_name_entry_idx ++
          []))))))))))))))) := by
  simp [Header.encode, List.append_assoc]

/-- Claim C6: encoding a well-formed header record — words laid out in
the record's endianness, addresses at the record's word-size width —
and decoding the resulting bytes reproduces every field of the record
exactly, for both word sizes and both endianness settings. -/
theorem encode_decode_round_trip (h : Header) (hv : h.Valid) :
    (Header.read (Reader.new h.encode)).1 = Except.ok h := by
  obtain ⟨hav, hm, hver, hfl, hhs, hps, hpc, hss, hsc, hsi, ht, he1, he2, he3,
    hw1, hw2, hw3⟩ := hv
  rw [Header.encode_shape h]
  obtain ⟨ws, e, a, av, t, m, v, a1, a2, a3, fl, hs, ps, pc, ss, sc, si⟩ := h
  dsimp only at *
  have ht2 : typeOfU16 (e.interp (e.toBytes 2 (typeCode t))) = some t := by
    rw [interp_toBytes2 e _ (typeCode_lt t ht)]
    exact typeOfU16_typeCode t ht
  rw [Header.read_run (wordSizeByte ws) (endiannessByte e) ws e _
      (wordSizeOfByte_wordSizeByte ws) (endiannessOfByte_endiannessByte e),
    Header.readIdentTail_run ws e a (abiByte a) (abiOfByte_abiByte a) _ 6,
    Header.readAfterAbi_run ws e a av (List.replicate 7 0) _ (by simp) (6 + 2),
    Header.readMulti_run ws e a av t _ _ (toBytes_length e 2 (typeCode t)) ht2
      (6 + 2 + 8),
    Header.readAfterType_run ws e a av t _ _ _ (toBytes_length e 2 m)
      (toBytes_length e 4 v) (6 + 2 + 8 + 2)]
  cases ws with
  | Bits32 =>
    cases a1 with
    | Bits64 x1 => simp [Address.width] at hw1
    | Bits32 x1 =>
      cases a2 with
      | Bits64 x2 => simp [Address.width] at hw2
      | Bits32 x2 =>
        cases a3 with
        | Bits64 x3 => simp [Address.width] at hw3
        | Bits32 x3 =>
          simp only [Address.Wf] at he1 he2 he3
          dsimp only [Address.toBytes]
          rw [Header.readAddrs_run32 e a av t _ _ _ _ _ _
              (toBytes_length e 4 x1) (toBytes_length e 4 x2)
              (toBytes_length e 4 x3) _,
            Header.readScalars_run WordSize.Bits32 e a av t _ _ _ _ _ _ _ _ _
              _ _ _ _ (toBytes_length e 4 fl) (toBytes_length e 2 hs)
              (toBytes_length e 2 ps) (toBytes_length e 2 pc)
              (toBytes_length e 2 ss) (toBytes_length e 2 sc)
              (toBytes_length e 2 si) _]
          rw [interp_toBytes2 e m hm, interp_toBytes4 e v hver,
            interp_toBytes4 e x1 he1, interp_toBytes4 e x2 he2,
            interp_toBytes4 e x3 he3, interp_toBytes4 e fl hfl,
            interp_toBytes2 e hs hhs, interp_toBytes2 e ps hps,
            interp_toBytes2 e pc hpc, interp_toBytes2 e ss hss,
            interp_toBytes2 e sc hsc, interp_toBytes2 e si hsi]
  | Bits64 =>
    cases a1 with
    | Bits32 x1 => simp [Address.width] at hw1
    | Bits64 x1 =>
      cases a2 with
      | Bits32 x2 => simp [Address.width] at hw2
      | Bits64 x2 =>
        cases a3 with
        | Bits32 x3 => simp [Address.width] at hw3
        | Bits64 x3 =>
          simp only [Address.Wf] at he1 he2 he3
          dsimp only [Address.toBytes]
          rw [Header.readAddrs_run64 e a av t _ _ _ _ _ _
              (toBytes_length e 8 x1) (toBytes_length e 8 x2)
              (toBytes_length e 8 x3) _,
            Header.readScalars_run WordSize.Bits64 e a av t _ _ _ _ _ _ _ _ _
              _ _ _ _ (toBytes_length e 4 fl) (toBytes_length e 2 hs)
              (toBytes_length e 2 ps) (toBytes_length e 2 pc)
              (toBytes_length e 2 ss) (toBytes_length e 2 sc)
              (toBytes_length e 2 si) _]
          rw [interp_toBytes2 e m hm, interp_toBytes4 e v hver,
            interp_toBytes8 e x1 he1, interp_toBytes8 e x2 he2,
            interp_toBytes8 e x3 he3, interp_toBytes4 e fl hfl,
            interp_toBytes2 e hs hhs, interp_toBytes2 e ps hps,
            interp_toBytes2 e pc hpc, interp_toBytes2 e ss hss,
            interp_toBytes2 e sc hsc, interp_toBytes2 e si hsi]

/-- Claim C6 witness: a concrete 64-bit big-endian record round-trips. -/
theorem encode_decode_round_trip_witness :
    (Header.read (Reader.new
        ({ word_size := WordSize.Bits64
           endianness := Endianness.Big
           abi := Abi.FreeBSD
           abi_version := 9
           type_ := Type_.Other 0xFF00
           machine := 0x3E
           version := 1
           entry_point := Address.Bits64 0x401000
           program_header_address := Address.Bits64 64
           section_header_address := Address.Bits64 0x12345678
           flags := 7
           header_size := 64
           program_header_entry_size := 56
           program_header_entry_count := 13
           section_header_entry_size := 64
           section_header_entry_count := 31
           section_header_name_entry_idx := 30 } : Header).encode)).1 =
      Except.ok
        { word_size := WordSize.Bits64
          endianness := Endianness.Big
          abi := Abi.FreeBSD
          abi_version := 9
          type_ := Type_.Other 0xFF00
          machine := 0x3E
          version := 1
          entry_point := Address.Bits64 0x401000
          program_header_address := Address.Bits64 64
          section_header_address := Address.Bits64 0x12345678
          flags := 7
          header_size := 64
          program_header_entry_size := 56
          program_header_entry_count := 13
          section_header_entry_size := 64
          section_header_entry_count := 31
          section_header_name_entry_idx := 30 } :=
  encode_decode_round_trip _ (by decide)

end Elf
